import Mathlib

/-!
# Run-lifecycle reducer, stream dispatcher and thread store of the SDK server

A shallow embedding of `pkg/sdkserver/types.go`, `pkg/sdkserver/run.go`,
`pkg/sdkserver/threads/types.go` and `pkg/sdkserver/threads/store.go`.

Conventions of the embedding:

* a Go pointer receiver that is mutated in place becomes explicit state passing;
* a Go `map[string]V` is an association list with `mapGet` (a missing key reads as the
  zero value) and `mapSet` (replace the entry of the key, or add one); a nil map is `none`;
* a Go `time.Time` is a natural number, `0` being the zero time;
* `any` payloads (chat request, chat response, chat state) are `Option String`, `none` being nil;
* a run-time panic (nil dereference, write to a nil map) is the `panicked` result.
-/

set_option linter.dupNamespace false

namespace Sdkserver

/-! ## Data model -/

/-- Modelled from the spec: the `runner.EventType` constants are declared outside the listed
sources; the event tags enumerated for the reducer are taken as pairwise distinct constants.
`callConfirm` and `prompt` are the two tags declared in `threads/types.go`; `other` stands for
any further tag (the zero value of the Go string type is `other ""`). -/
inductive EventType where
  | runStart
  | callStart
  | callContinue
  | callSubCalls
  | callProgress
  | chat
  | callFinish
  | runFinish
  | callConfirm
  | prompt
  | other (tag : String)
  deriving DecidableEq, Repr

/-- Lifecycle of a run (`threads.RunState`); `other` covers a tag outside the five
constants, such as the zero value. -/
inductive RunState where
  | Creating
  | Running
  | Continue
  | Finished
  | Error
  | other (tag : String)
  deriving DecidableEq, Repr

/-- Timestamps; `0` is the zero `time.Time`. -/
abbrev Time := Nat

/-- Modelled from the spec: `types.Program` is declared outside the listed sources; the
reducer only stores it, so a name and an entry tool identifier stand for its content. -/
structure Program where
  Name : String
  EntryToolID : String
  deriving DecidableEq, Repr

/-- Modelled from the spec: `engine.CallContext` is declared outside the listed sources; the
reducer reads its identifier only, the parent identifier and tool name stand for the rest. -/
structure CallContext where
  ID : String
  ParentID : String
  ToolName : String
  deriving DecidableEq, Repr

/-- Modelled from the spec: `engine.Call` (the value type of a sub-calls map) is declared
outside the listed sources and is only copied, so it is an uninterpreted token. -/
abbrev EngineCall := String

/-- A Go `map[string]engine.Call`: `none` is the nil map. -/
abbrev SubCallMap := Option (List (String × EngineCall))

/-- Go `len` of a map, `0` for the nil map. -/
def SubCallMap.len : SubCallMap → Nat
  | none => 0
  | some m => m.length

/-- Go `maps.Clone`: a shallow copy, nil staying nil. -/
def mapsClone (m : SubCallMap) : SubCallMap := m

/-- Modelled from the spec: `types.Prompt` is declared outside the listed sources and is only
copied into the advisory message. -/
structure Prompt where
  Message : String
  Fields : List String
  Sensitive : Bool
  deriving DecidableEq, Repr

/-- Modelled from the spec: `types.Usage` is declared outside the listed sources; no function
of the embedding writes it. -/
structure Usage where
  PromptTokens : Nat
  CompletionTokens : Nat
  TotalTokens : Nat
  deriving DecidableEq, Repr

/-- Modelled from the spec: `runner.ChatResponse`, the terminal result of an execution (output
text, continuation token, done flag), is declared outside the listed sources. -/
structure ChatResponse where
  Done : Bool
  Content : String
  ToolID : String
  State : Option String
  deriving DecidableEq, Repr

/-- One output chunk of a call (`threads.Output`). -/
structure Output where
  Content : String
  SubCalls : SubCallMap
  deriving DecidableEq, Repr

/-- One node of the call tree (`threads.Call`), the embedded call context included. -/
structure Call where
  CallContext : CallContext
  Typ : EventType
  Start : Time
  End : Time
  Input : String
  Output : List Output
  Usage : Usage
  LLMRequest : Option String
  LLMResponse : Option String
  deriving DecidableEq, Repr

/-- The zero value of `threads.Call`, which a Go map read returns for a missing key. -/
def Call.zero : Call where
  CallContext := ⟨"", "", ""⟩
  Typ := .other ""
  Start := 0
  End := 0
  Input := ""
  Output := []
  Usage := ⟨0, 0, 0⟩
  LLMRequest := none
  LLMResponse := none

/-- The published event (`threads.GPTScriptEvent`) with its embedded `gserver.Event`,
`runner.Event` and `types.Prompt` flattened. -/
structure GPTScriptEvent where
  Time : Time
  CallContext : Option CallContext
  ToolSubCalls : SubCallMap
  Typ : EventType
  ChatRequest : Option String
  ChatResponse : Option String
  Content : String
  RunID : String
  Program : Option Program
  Input : String
  Output : String
  Err : String
  Prompt : Prompt
  Done : Bool
  deriving DecidableEq, Repr

/-- A Go `map[string]Call` that is not nil. -/
abbrev CallMap := List (String × Call)

/-- Go map read `m[k]`: the value of the key, or the zero value. -/
def mapGet : CallMap → String → Call
  | [], _ => Call.zero
  | (k', v) :: rest, k => if k' = k then v else mapGet rest k

/-- Go map write `m[k] = v`: replaces the entry of the key or adds one. -/
def mapSet : CallMap → String → Call → CallMap
  | [], k, v => [(k, v)]
  | (k', v') :: rest, k, v => if k' = k then (k, v) :: rest else (k', v') :: mapSet rest k v

/-- The keys of a call map. -/
def mapKeys (m : CallMap) : List String := m.map Prod.fst

/-- The live aggregate of a run (`threads.RunInfo`); `Calls = none` is the nil map. -/
structure RunInfo where
  Calls : Option CallMap
  ID : String
  ThreadID : Nat
  Program : Program
  Input : String
  Output : String
  RawOutput : Option ChatResponse
  Error : String
  Start : Time
  End : Time
  State : RunState
  ChatState : Option String
  deriving DecidableEq, Repr

/-- Go read `r.Calls[k]`, which also works on the nil map. -/
def RunInfo.callAt (r : RunInfo) (k : String) : Call :=
  match r.Calls with
  | none => Call.zero
  | some m => mapGet m k

/-- The advisory message of a prompt event (`prompt` in `types.go`). -/
structure PromptMessage where
  Prompt : Prompt
  ID : String
  Typ : EventType
  Time : Time
  deriving DecidableEq, Repr

/-- The run message (`runEvent` in `types.go`): a copy of the run and the event tag. -/
structure runEvent where
  RunInfo : RunInfo
  Typ : EventType
  deriving DecidableEq, Repr

/-- The one-entry `map[string]any` returned by `process`, by its key. -/
inductive Message where
  | prompt (p : PromptMessage)
  | run (ev : runEvent)
  | call (c : Call)
  deriving DecidableEq, Repr

/-- How a function that mutates `*RunInfo` ends: it returns, or it panics; either way the
run carries the writes made so far. -/
inductive Result (α : Type) where
  | returned (run : RunInfo) (val : α)
  | panicked (run : RunInfo)
  deriving DecidableEq, Repr

/-- The run as the function left it. -/
def Result.run {α : Type} : Result α → RunInfo
  | .returned r _ => r
  | .panicked r => r

/-- The returned value, if the function returned. -/
def Result.val {α : Type} : Result α → Option α
  | .returned _ v => some v
  | .panicked _ => none

/-! ## The reducer (`types.go`, `threads/types.go`) -/

/-- `Call.SetSubCalls`: appends a chunk holding a clone of the map. -/
def Call.SetSubCalls (c : Call) (subCalls : SubCallMap) : Call :=
  { c with Output := c.Output ++ [⟨"", mapsClone subCalls⟩] }

/-- `Call.SetOutput`: appends a text chunk when there is no chunk or the last chunk has
sub-calls, and otherwise assigns the text to the last chunk's content. -/
def Call.SetOutput (c : Call) (o : String) : Call :=
  match c.Output.getLast? with
  | none => { c with Output := c.Output ++ [⟨o, none⟩] }
  | some last =>
    if last.SubCalls.len > 0 then
      { c with Output := c.Output ++ [⟨o, none⟩] }
    else
      { c with Output := c.Output.dropLast ++ [{ last with Content := o }] }

/-- `newRun`: the identifier printed in decimal, lifecycle `creating`, an empty call map. -/
def newRun (id : Nat) : RunInfo where
  Calls := some []
  ID := toString id
  ThreadID := 0
  Program := ⟨"", ""⟩
  Input := ""
  Output := ""
  RawOutput := none
  Error := ""
  Start := 0
  End := 0
  State := .Creating
  ChatState := none

/-- The first `switch` of `process` for the tags other than `prompt`: the run-level fields.
A run-start event without a program panics at `*e.Program`, after the start was written. -/
def processRunFields (r : RunInfo) (e : GPTScriptEvent) : Result Unit :=
  match e.Typ with
  | .runStart =>
    match e.Program with
    | none => .panicked { r with Start := e.Time }
    | some p => .returned { r with Start := e.Time, Program := p, State := .Running } ()
  | .runFinish =>
    let r1 := { r with End := e.Time, Output := e.Output, Error := e.Err }
    if r1.Error ≠ "" then
      .returned { r1 with State := .Error } ()
    else if !e.Done then
      .returned { r1 with State := .Continue } ()
    else
      .returned { r1 with State := .Finished } ()
  | _ => .returned r ()

/-- The second `switch` of `process`: the call-level fields. -/
def processCallFields (call : Call) (e : GPTScriptEvent) : Call :=
  match e.Typ with
  | .callStart => { call with Start := e.Time, Input := e.Content }
  | .callSubCalls => call.SetSubCalls e.ToolSubCalls
  | .callProgress => call.SetOutput e.Content
  | .callFinish => ({ call with End := e.Time }).SetOutput e.Content
  | .chat =>
    let c1 := match e.ChatRequest with
      | some q => { call with LLMRequest := some q }
      | none => call
    match e.ChatResponse with
    | some p => { c1 with LLMResponse := some p }
    | none => c1
  | _ => call

/-- `process`: folds one event into the run and returns the message for the client. -/
def process (r : RunInfo) (e : GPTScriptEvent) : Result Message :=
  if e.Typ = .prompt then
    .returned r (.prompt ⟨e.Prompt, e.RunID, e.Typ, e.Time⟩)
  else
    match processRunFields r e with
    | .panicked r1 => .panicked r1
    | .returned r1 _ =>
      match e.CallContext with
      | none => .returned r1 (.run ⟨r1, e.Typ⟩)
      | some cc =>
        if cc.ID = "" then
          .returned r1 (.run ⟨r1, e.Typ⟩)
        else
          let call := processCallFields { r1.callAt cc.ID with CallContext := cc, Typ := e.Typ } e
          match r1.Calls with
          | none => .panicked r1
          | some m => .returned { r1 with Calls := some (mapSet m cc.ID call) } (.call call)

/-- `processStdout`: the terminal helper for a result that is not an event. -/
def processStdout (r : RunInfo) (cs : ChatResponse) : RunInfo :=
  let r1 := if cs.Done then { r with State := .Finished } else { r with State := .Continue }
  { r1 with RawOutput := some cs, ChatState := cs.State, Output := cs.Content }

/-- Folding a sequence of events through `process`; a panic ends the fold. -/
def foldEvents : RunInfo → List GPTScriptEvent → Result Unit
  | r, [] => .returned r ()
  | r, e :: rest =>
    match process r e with
    | .panicked r1 => .panicked r1
    | .returned r1 _ => foldEvents r1 rest

/-- The zero value of `threads.GPTScriptEvent`. -/
def zeroEvent : GPTScriptEvent where
  Time := 0
  CallContext := none
  ToolSubCalls := none
  Typ := .other ""
  ChatRequest := none
  ChatResponse := none
  Content := ""
  RunID := ""
  Program := none
  Input := ""
  Output := ""
  Err := ""
  Prompt := ⟨"", [], false⟩
  Done := false

/-- An event of the given tag for a call, all other fields zero. -/
def callEvent (t : EventType) (id : String) (time : Time) (content : String)
    (sub : SubCallMap) : GPTScriptEvent :=
  { zeroEvent with
    Typ := t, CallContext := some ⟨id, "", ""⟩, Time := time, Content := content,
    ToolSubCalls := sub }

/-- The key under which `process` writes a call for this event: the identifier of the call
context, unless the tag is `prompt`, the context is nil or the identifier is empty. -/
def callKey (e : GPTScriptEvent) : Option String :=
  if e.Typ = .prompt then none
  else match e.CallContext with
    | none => none
    | some cc => if cc.ID = "" then none else some cc.ID

/-- The call map `process` leaves, from the call map it finds. -/
def stepCalls (m : CallMap) (e : GPTScriptEvent) : CallMap :=
  match callKey e, e.CallContext with
  | some k, some cc =>
    mapSet m k (processCallFields { mapGet m k with CallContext := cc, Typ := e.Typ } e)
  | _, _ => m

/-- Folding a sequence of events through `process`, collecting the messages it returns. -/
def foldMessages : RunInfo → List GPTScriptEvent → Result (List Message)
  | r, [] => .returned r []
  | r, e :: rest =>
    match process r e with
    | .panicked r1 => .panicked r1
    | .returned r1 msg =>
      match foldMessages r1 rest with
      | .panicked r2 => .panicked r2
      | .returned r2 msgs => .returned r2 (msg :: msgs)

/-! ## The stream dispatcher (`run.go`) -/

/-- A durable thread (`threads.Thread`). -/
structure Thread where
  ID : Nat
  CreatedAt : Time
  UpdatedAt : Time
  FirstRunID : Nat
  deriving DecidableEq, Repr

/-- The value a frame carries: a message of `process`, the `stdout` entry holding the
execution result, or the `stderr` entry holding an error text. Every payload is taken to
marshal to JSON. -/
inductive Payload where
  | message (m : Message)
  | stdout (out : ChatResponse)
  | stderr (err : String)
  deriving DecidableEq, Repr

/-- One write to the response: `sse p` is `"data: " ++ json p ++ "\n\n"` as written by
`writeServerSentEvent`; `body code p` is the status code and the bare `json p` written by
`writeError`; `done` is the literal `"data: [DONE]\n\n"`. -/
inductive Frame where
  | sse (p : Payload)
  | body (code : Nat) (p : Payload)
  | done
  deriving DecidableEq, Repr

/-- A call the dispatcher makes on the store, with its arguments. -/
inductive StoreCall where
  | CreateEvent (runID : Nat) (e : GPTScriptEvent)
  | CreateThread
  | FinishRun (threadID runID : Nat) (r : RunInfo)
  deriving DecidableEq, Repr

/-- The state of one dispatch: the run being built, the writes to the response so far and
the store calls so far, both in order. -/
structure Dispatch where
  run : RunInfo
  frames : List Frame
  store : List StoreCall
  deriving DecidableEq, Repr

/-- How a dispatcher function ends: it returns a value, or a panic of `process` or
`processStdout` goes through it. -/
inductive Ended (α : Type) where
  | returned (d : Dispatch) (val : α)
  | panicked (d : Dispatch)
  deriving DecidableEq, Repr

/-- The dispatch state at the end, returned or panicked. -/
def Ended.dispatch {α : Type} : Ended α → Dispatch
  | .returned d _ => d
  | .panicked d => d

/-- `writeServerSentEvent`: one `data:` frame with the marshalled value. -/
def writeServerSentEvent (d : Dispatch) (p : Payload) : Dispatch :=
  { d with frames := d.frames ++ [.sse p] }

/-- `writeError`: the status code, then the bare JSON object with the error text. -/
def writeError (d : Dispatch) (code : Nat) (err : String) : Dispatch :=
  { d with frames := d.frames ++ [.body code (.stderr err)] }

/-- `streamEvents` on the events received from the subscription until it is closed or the
context is cancelled (both make the loop return nil): an event of another run is skipped;
an event of this run is handed to `CreateEvent`, a run-finish event is then returned, any
other event is folded and its message written. -/
def streamEvents (runID : Nat) : Dispatch → List GPTScriptEvent → Ended (Option GPTScriptEvent)
  | d, [] => .returned d none
  | d, e :: rest =>
    if e.RunID ≠ d.run.ID then
      streamEvents runID d rest
    else
      let d1 := { d with store := d.store ++ [.CreateEvent runID e] }
      if e.Typ = .runFinish then
        .returned d1 (some e)
      else
        match process d1.run e with
        | .panicked r1 => .panicked { d1 with run := r1 }
        | .returned r1 msg =>
          streamEvents runID (writeServerSentEvent { d1 with run := r1 } (.message msg)) rest

/-- The events of the run `id` before its first run-finish event, in order. -/
def beforeFinish (id : String) (evs : List GPTScriptEvent) : List GPTScriptEvent :=
  (evs.filter (fun e => e.RunID = id)).takeWhile (fun e => e.Typ ≠ .runFinish)

/-- The first run-finish event of the run `id`, if any. -/
def firstFinish (id : String) (evs : List GPTScriptEvent) : Option GPTScriptEvent :=
  (evs.filter (fun e => e.RunID = id)).find? (fun e => e.Typ = .runFinish)

/-- Which case of the `select` of `processEventStreamOutput` fires: the context is done, a
value is received from the output channel (nil when the channel was closed without a
result), or an error is received. -/
inductive Merge where
  | cancelled
  | output (out : Option ChatResponse)
  | failed (err : String)
  deriving DecidableEq, Repr

/-- The result the `select` leaves in `out`. -/
def Merge.out : Merge → Option ChatResponse
  | .output out => out
  | _ => none

/-- The guard `threadID == 0 && out != nil && !out.Done` of `processEventStreamOutput`. -/
def needsThread (threadID : Nat) (out : Option ChatResponse) : Bool :=
  threadID == 0 && (match out with | some o => !o.Done | none => false)

/-- The thread id after the guarded block: when the guard holds `CreateThread` is called and,
if the pointer it returned is not nil, the thread id becomes that thread's id. -/
def threadAfter (created : Option Thread) (threadID : Nat) (out : Option ChatResponse) : Nat :=
  if needsThread threadID out then
    (match created with | some thread => thread.ID | none => threadID)
  else threadID

/-- `processEventStreamOutput`, with `created` the thread pointer `CreateThread` returns when
it is called (nil on a nil store), `evs` the events `streamEvents` receives and `sel` the
case of the `select`. -/
def processEventStreamOutput (created : Option Thread) (threadID runID : Nat)
    (evs : List GPTScriptEvent) (sel : Merge) : Ended Unit :=
  match streamEvents runID ⟨newRun runID, [], []⟩ evs with
  | .panicked d => Ended.panicked d
  | .returned d1 runFinishEvent =>
    let merged : Ended Unit :=
      match sel with
      | .cancelled => Ended.returned d1 ()
      | .output none => Ended.panicked d1
      | .output (some out) =>
        Ended.returned (writeServerSentEvent { d1 with run := processStdout d1.run out } (.stdout out)) ()
      | .failed err => Ended.returned (writeError d1 500 ("failed to run file: " ++ err)) ()
    match merged with
    | .panicked d => Ended.panicked d
    | .returned d2 _ =>
      let wantThread : Bool := needsThread threadID sel.out
      let d3 : Dispatch :=
        if wantThread then { d2 with store := d2.store ++ [StoreCall.CreateThread] } else d2
      let threadID1 : Nat := threadAfter created threadID sel.out
      let d4 : Dispatch := { d3 with run := { d3.run with ThreadID := threadID1 } }
      let folded : Ended Unit :=
        match runFinishEvent with
        | none => Ended.returned d4 ()
        | some e =>
          match process d4.run e with
          | .panicked r => Ended.panicked { d4 with run := r }
          | .returned r msg => Ended.returned (writeServerSentEvent { d4 with run := r } (.message msg)) ()
      match folded with
      | .panicked d => Ended.panicked d
      | .returned d5 _ =>
        let d6 : Dispatch := { d5 with frames := d5.frames ++ [Frame.done] }
        let d7 : Dispatch :=
          match sel.out with
          | some out =>
            if !out.Done then { d6 with run := { d6.run with State := RunState.Continue } } else d6
          | none => d6
        Ended.returned { d7 with store := d7.store ++ [StoreCall.FinishRun threadID1 runID d7.run] } ()

/-! ## The thread store (`threads/store.go`) -/

/-- A run row (`threads.Run`); the two JSON columns hold the run pointer (nil is `none`) and
the call map (nil is `none`). -/
structure Run where
  ID : Nat
  PreviousRunID : Nat
  StartedAt : Time
  FinishedAt : Time
  ThreadID : Nat
  Input : String
  Output : String
  ChatStateAfter : Option String
  Run : Option RunInfo
  Calls : Option CallMap
  deriving DecidableEq, Repr

/-- An event row (`threads.Event`). -/
structure Event where
  ID : Nat
  RunID : Nat
  CreatedAt : Time
  Event : GPTScriptEvent
  deriving DecidableEq, Repr

/-- The three tables behind an initialised store. -/
structure DB where
  threads : List Thread
  runs : List Run
  events : List Event
  deriving DecidableEq, Repr

/-- A `*Store`: `none` is the nil store. -/
abbrev Store := Option DB

/-- One statement of a transaction: `fail` is the error the database reports for it, if
any; otherwise the statement takes effect. -/
def exec (fail : Option String) (tx : DB) : Except String DB :=
  match fail with
  | some err => .error err
  | none => .ok tx

/-- The `Transaction` of the database library: the body runs on the tables; when it returns
an error the tables are rolled back to what they were, otherwise its writes are committed. -/
def transaction (db : DB) (body : DB → Except String DB) : DB × Option String :=
  match body db with
  | .ok tx => (tx, none)
  | .error err => (db, some err)

/-- The `Updates` of the database library with a struct argument, applied to one row: the
fields of the struct that hold a non-zero value are written, the others keep the value of
the row; the primary key selects the row and is not written. -/
def Run.Updates (row upd : Sdkserver.Run) : Sdkserver.Run where
  ID := row.ID
  PreviousRunID := if upd.PreviousRunID = 0 then row.PreviousRunID else upd.PreviousRunID
  StartedAt := if upd.StartedAt = 0 then row.StartedAt else upd.StartedAt
  FinishedAt := if upd.FinishedAt = 0 then row.FinishedAt else upd.FinishedAt
  ThreadID := if upd.ThreadID = 0 then row.ThreadID else upd.ThreadID
  Input := if upd.Input = "" then row.Input else upd.Input
  Output := if upd.Output = "" then row.Output else upd.Output
  ChatStateAfter := match upd.ChatStateAfter with
    | none => row.ChatStateAfter
    | some v => some v
  Run := match upd.Run with
    | none => row.Run
    | some v => some v
  Calls := match upd.Calls with
    | none => row.Calls
    | some v => some v

/-- The body of the transaction of `Store.FinishRun`: with thread id 0 the run row of the id
is deleted, then the event rows of the run; otherwise the run row of the id is updated. -/
def finishRunTx (fail1 fail2 : Option String) (threadID id : Nat) (run : Run) (tx : DB) :
    Except String DB :=
  if threadID = 0 then
    match exec fail1 { tx with runs := tx.runs.filter (fun row => row.ID ≠ id) } with
    | .error err => .error err
    | .ok tx1 => exec fail2 { tx1 with events := tx1.events.filter (fun ev => ev.RunID ≠ id) }
  else
    exec fail1 { tx with runs := tx.runs.map (fun row => if row.ID = id then row.Updates run else row) }

/-- The row literal `&Run{...}` built by `Store.FinishRun` from the run info whose thread id
was just set. -/
def finishedRun (now : Time) (threadID id : Nat) (r1 : RunInfo) : Run :=
  { ID := id, PreviousRunID := 0, StartedAt := 0, FinishedAt := now, ThreadID := threadID,
    Input := "", Output := r1.Output, ChatStateAfter := r1.ChatState, Run := some r1,
    Calls := r1.Calls }

/-- `Store.FinishRun`, with `now` the value of `time.Now()` and `fail1`, `fail2` the errors
the database reports for the first and the second statement of the transaction. The result
is the store, the run info as the call leaves it, the returned row and the returned error.
The row is returned as built; its back-fill by the `RETURNING` clause is not modelled. -/
def Store.FinishRun (s : Store) (now : Time) (fail1 fail2 : Option String)
    (threadID id : Nat) (r : RunInfo) : Store × RunInfo × Option Run × Option String :=
  match s with
  | none => (none, r, none, none)
  | some db =>
    let r1 : RunInfo := { r with ThreadID := threadID }
    let run : Run := finishedRun now threadID id r1
    let res := transaction db (finishRunTx fail1 fail2 threadID id run)
    (some res.1, r1, some run, res.2)

/-- The error of a statement whose bound argument is a struct, which the database driver
cannot convert to a column value. -/
def unsupportedArgument : String := "unsupported type"

/-- The body of the transaction of `Store.DeleteThread`, with `returning` telling whether
the database hands back the deleted rows (the `RETURNING` clause; without it the slice
`runs` stays empty). The run rows of the thread are deleted and `runs` receives what the
database hands back. The second statement binds the slice `runs` itself, rows and not ids,
to `run_id IN ?`: an empty slice is bound as `(NULL)`, which matches no event row, and a
slice of rows is an argument the driver rejects, so the statement fails. The third statement
deletes the thread row. -/
def deleteThreadTx (returning : Bool) (fail1 fail2 fail3 : Option String) (id : Nat)
    (tx : DB) : Except String DB :=
  let runs : List Run := if returning then tx.runs.filter (fun row => row.ThreadID = id) else []
  match exec fail1 { tx with runs := tx.runs.filter (fun row => row.ThreadID ≠ id) } with
  | .error err => .error err
  | .ok tx1 =>
    match (if runs.isEmpty then exec fail2 tx1 else Except.error unsupportedArgument) with
    | .error err => .error err
    | .ok tx2 => exec fail3 { tx2 with threads := tx2.threads.filter (fun t => t.ID ≠ id) }

/-- `Store.DeleteThread`, with `returning` as in `deleteThreadTx` and `fail1`, `fail2`,
`fail3` further errors the database reports for the three statements of the transaction.
The result is the store and the returned error. -/
def Store.DeleteThread (s : Store) (returning : Bool) (fail1 fail2 fail3 : Option String)
    (id : Nat) : Store × Option String :=
  match s with
  | none => (none, none)
  | some db =>
    let res := transaction db (deleteThreadTx returning fail1 fail2 fail3 id)
    (some res.1, res.2)

/-- The zero value of `threads.Thread`, which `new(Thread)` points to. -/
def Thread.zero : Thread := ⟨0, 0, 0, 0⟩

/-- The zero value of `threads.Run`. -/
def Run.zero : Sdkserver.Run :=
  { ID := 0, PreviousRunID := 0, StartedAt := 0, FinishedAt := 0, ThreadID := 0, Input := "",
    Output := "", ChatStateAfter := none, Run := none, Calls := none }

/-- The zero value of `threads.Event`. -/
def Event.zero : Sdkserver.Event := ⟨0, 0, 0, zeroEvent⟩

/-- The error of a `First` query that matches no row. -/
def recordNotFound : String := "record not found"

/-- `Store.CreateThread`, with `now` the time the database library stamps on the row, `newID`
the id the database assigns and `fail` the error of the insert. The result is the store, the
returned thread pointer and the returned error; the pointer is not nil on an initialised
store, also when the insert fails. -/
def Store.CreateThread (s : Store) (now : Time) (newID : Nat) (fail : Option String) :
    Store × Option Thread × Option String :=
  match s with
  | none => (none, none, none)
  | some db =>
    match fail with
    | some err => (some db, some Thread.zero, some err)
    | none =>
      let thread : Thread := { Thread.zero with ID := newID, CreatedAt := now, UpdatedAt := now }
      (some { db with threads := db.threads ++ [thread] }, some thread, none)

/-- `Store.NameThread`: an update of the `name` column of the thread rows with the id. The
column is not a field of `threads.Thread`, so in the tables only the update time of the row
changes; the returned thread is the updated row, or the zero thread when no row matches. -/
def Store.NameThread (s : Store) (now : Time) (fail : Option String) (id : Nat)
    (_name : String) : Store × Option Thread × Option String :=
  match s with
  | none => (none, none, none)
  | some db =>
    match fail with
    | some err => (some db, some Thread.zero, some err)
    | none =>
      let threads := db.threads.map (fun t => if t.ID = id then { t with UpdatedAt := now } else t)
      (some { db with threads := threads },
       some ((threads.find? (fun t => t.ID = id)).getD Thread.zero), none)

/-- `Store.ListThreads`: every thread row. -/
def Store.ListThreads (s : Store) (fail : Option String) : List Thread × Option String :=
  match s with
  | none => ([], none)
  | some db =>
    match fail with
    | some err => ([], some err)
    | none => (db.threads, none)

/-- `Store.GetThread`: the thread row with the id, or the record-not-found error. -/
def Store.GetThread (s : Store) (fail : Option String) (id : Nat) :
    Option Thread × Option String :=
  match s with
  | none => (none, none)
  | some db =>
    match fail with
    | some err => (some Thread.zero, some err)
    | none =>
      match db.threads.find? (fun t => t.ID = id) with
      | some t => (some t, none)
      | none => (some Thread.zero, some recordNotFound)

/-- The body of the transaction of `Store.CreateRun`: with a previous run id the previous run
is looked up and its thread id inherited, then the row is inserted with the id the database
assigns. The row is the second component, as the pointer `r` holds it at the end. -/
def createRunTx (newID : Nat) (fail1 fail2 : Option String) (previousRunID : Nat)
    (r : Run) (tx : DB) : Except String DB × Run :=
  let looked : Except String Run :=
    if previousRunID ≠ 0 then
      match fail1 with
      | some err => .error err
      | none =>
        match tx.runs.find? (fun row => row.ID = previousRunID) with
        | some previousRun => .ok { r with ThreadID := previousRun.ThreadID }
        | none => .error recordNotFound
    else .ok r
  match looked with
  | .error err => (.error err, r)
  | .ok r1 =>
    match fail2 with
    | some err => (.error err, r1)
    | none => (.ok { tx with runs := tx.runs ++ [{ r1 with ID := newID }] }, { r1 with ID := newID })

/-- `Store.CreateRun`, with `now` the value of `time.Now()`, `newID` the id the database
assigns and `fail1`, `fail2` the errors of the lookup and of the insert. -/
def Store.CreateRun (s : Store) (now : Time) (newID : Nat) (fail1 fail2 : Option String)
    (input : String) (previousRunID : Nat) (run : Option RunInfo) :
    Store × Option Run × Option String :=
  match s with
  | none => (none, none, none)
  | some db =>
    let r : Run := { Run.zero with
      PreviousRunID := previousRunID, StartedAt := now, Input := input, Run := run }
    let res := createRunTx newID fail1 fail2 previousRunID r db
    match res.1 with
    | .ok tx => (some tx, some res.2, none)
    | .error err => (some db, some res.2, some err)

/-- `Store.ListRuns`: the run rows of the thread, by ascending id. -/
def Store.ListRuns (s : Store) (fail : Option String) (threadID : Nat) :
    List Run × Option String :=
  match s with
  | none => ([], none)
  | some db =>
    match fail with
    | some err => ([], some err)
    | none =>
      ((db.runs.filter (fun row => row.ThreadID = threadID)).insertionSort
        (fun a b => a.ID ≤ b.ID), none)

/-- `Store.GetRun`: the run row with the thread id and the id, or the record-not-found
error. -/
def Store.GetRun (s : Store) (fail : Option String) (threadID id : Nat) :
    Option Run × Option String :=
  match s with
  | none => (none, none)
  | some db =>
    match fail with
    | some err => (some Run.zero, some err)
    | none =>
      match db.runs.find? (fun row => row.ThreadID = threadID ∧ row.ID = id) with
      | some row => (some row, none)
      | none => (some Run.zero, some recordNotFound)

/-- `Store.CreateEvent`, with `now` the value of `time.Now()`, `newID` the id the database
assigns and `fail` the error of the insert. -/
def Store.CreateEvent (s : Store) (now : Time) (newID : Nat) (fail : Option String)
    (runID : Nat) (event : GPTScriptEvent) : Store × Option Event × Option String :=
  match s with
  | none => (none, none, none)
  | some db =>
    let e : Event := { ID := 0, RunID := runID, CreatedAt := now, Event := event }
    match fail with
    | some err => (some db, some e, some err)
    | none =>
      (some { db with events := db.events ++ [{ e with ID := newID }] },
       some { e with ID := newID }, none)

/-- `Store.ListEvents`: the event rows of the run, by ascending id. -/
def Store.ListEvents (s : Store) (fail : Option String) (runID : Nat) :
    List Event × Option String :=
  match s with
  | none => ([], none)
  | some db =>
    match fail with
    | some err => ([], some err)
    | none =>
      ((db.events.filter (fun ev => ev.RunID = runID)).insertionSort
        (fun a b => a.ID ≤ b.ID), none)

/-- `Store.GetEvent`: the event row with the run id and the id, or the record-not-found
error. -/
def Store.GetEvent (s : Store) (fail : Option String) (runID id : Nat) :
    Option Event × Option String :=
  match s with
  | none => (none, none)
  | some db =>
    match fail with
    | some err => (some Event.zero, some err)
    | none =>
      match db.events.find? (fun ev => ev.RunID = runID ∧ ev.ID = id) with
      | some ev => (some ev, none)
      | none => (some Event.zero, some recordNotFound)

/-! ## The session monitor (`monitor.go`) -/

/-- Modelled from the spec: `engine.ToolCategory` and its constant `NoCategory` (a top-level
run, not a nested sub-call) are declared outside the listed sources. -/
inductive ToolCategory where
  | NoCategory
  | category (name : String)
  deriving DecidableEq, Repr

/-- The two values the monitor reads from the request-scoped context: the run id
(`gserver.RunIDFromContext`, the empty string when absent) and the tool category
(`engine.ToolCategoryFromContext`). -/
structure Context where
  runID : String
  category : ToolCategory
  deriving DecidableEq, Repr

/-- The events published on the broadcaster, oldest first; a send on `events.C` appends. -/
abbrev Bus := List GPTScriptEvent

/-- Modelled from the spec: `runner.Event`, the event the execution engine hands to the
monitor, is declared outside the listed sources; these are the fields the reducer reads. -/
structure RunnerEvent where
  Time : Time
  CallContext : Option CallContext
  ToolSubCalls : SubCallMap
  Typ : EventType
  ChatRequest : Option String
  ChatResponse : Option String
  Content : String
  deriving DecidableEq, Repr

/-- The per-run handle (`Session`); the mutex and the broadcaster are not state of the
model. -/
structure Session where
  id : String
  prj : Option Program
  env : List String
  input : String
  deriving DecidableEq, Repr

/-- `SessionFactory.Start`, with `now` the value of `time.Now()`: for a top-level run a
run-start event with the run id of the context and the program pointer is published; the
session is returned in both cases. -/
def SessionFactory.Start (bus : Bus) (now : Time) (ctx : Context) (prg : Option Program)
    (env : List String) (input : String) : Bus × Session :=
  let id := ctx.runID
  let category := ctx.category
  let bus1 : Bus :=
    if category = ToolCategory.NoCategory then
      bus ++ [{ zeroEvent with Time := now, Typ := .runStart, RunID := id, Program := prg }]
    else bus
  (bus1, { id := id, prj := prg, env := env, input := input })

/-- `Session.Event`: the engine's event is published with the run id and the input of the
session. -/
def Session.Event (s : Session) (bus : Bus) (e : RunnerEvent) : Bus :=
  bus ++ [{ zeroEvent with
    Time := e.Time, CallContext := e.CallContext, ToolSubCalls := e.ToolSubCalls, Typ := e.Typ,
    ChatRequest := e.ChatRequest, ChatResponse := e.ChatResponse, Content := e.Content,
    RunID := s.id, Input := s.input }]

/-- `Session.Stop`, with `now` the value of `time.Now()` and `err` the message of the error
(nil is `none`): nothing for a nested sub-call; for a top-level run a run-finish event with
the run id, input, output and, for a non-nil error, its message. -/
def Session.Stop (s : Session) (bus : Bus) (now : Time) (ctx : Context) (output : String)
    (err : Option String) : Bus :=
  let category := ctx.category
  if category ≠ ToolCategory.NoCategory then
    bus
  else
    let e : GPTScriptEvent :=
      { zeroEvent with
        Time := now, Typ := .runFinish, RunID := s.id, Input := s.input, Output := output }
    let e1 : GPTScriptEvent :=
      match err with
      | some msg => { e with Err := msg }
      | none => e
    bus ++ [e1]

/-- The run after the `select` of `processEventStreamOutput`: a received result is applied
by `processStdout`, the other cases leave the run as it is. -/
def mergeRun (sel : Merge) (r : RunInfo) : RunInfo :=
  match sel with
  | .output (some out) => processStdout r out
  | _ => r

/-- The writes of the `select` of `processEventStreamOutput`: the `stdout` frame of a received
result, or the write of `writeError` for a received error. -/
def mergeFrames (sel : Merge) : List Frame :=
  match sel with
  | .output (some out) => [Frame.sse (.stdout out)]
  | .failed err => [Frame.body 500 (.stderr ("failed to run file: " ++ err))]
  | _ => []

/-- The last write to the run before `FinishRun`: lifecycle `continue` for a received result
that is not done. -/
def finalState (out : Option ChatResponse) (r : RunInfo) : RunInfo :=
  match out with
  | some o => if !o.Done then { r with State := RunState.Continue } else r
  | none => r

/-- The `CreateThread` call of the guarded block, if the guard holds. -/
def threadCalls (threadID : Nat) (out : Option ChatResponse) : List StoreCall :=
  if needsThread threadID out then [StoreCall.CreateThread] else []

/-- Whether a frame has the form `data: ...` followed by a blank line. -/
def Frame.isData : Frame → Bool
  | .sse _ => true
  | .done => true
  | .body _ _ => false

/-- A call keeps text and sub-calls apart when every output chunk that holds at least one
sub-call has empty text. -/
def Call.textApart (c : Call) : Prop :=
  ∀ ch ∈ c.Output, 0 < ch.SubCalls.len → ch.Content = ""

/-- The bus after a top-level run "1": `Start`, one call-start event of the engine, `Stop`
without error. -/
def sampleBus : Bus :=
  let started := SessionFactory.Start [] 1 ⟨"1", .NoCategory⟩ (some ⟨"p", ""⟩) [] "in"
  let progressed := started.2.Event started.1 ⟨2, some ⟨"c1", "", ""⟩, none, .callStart, none, none, "in"⟩
  started.2.Stop progressed 3 ⟨"1", .NoCategory⟩ "out" none

/-- A run row as `CreateRun` leaves it, for the examples. -/
def sampleRun (id threadID : Nat) (output : String) : Run :=
  { ID := id, PreviousRunID := 0, StartedAt := 1, FinishedAt := 0, ThreadID := threadID,
    Input := "in", Output := output, ChatStateAfter := none, Run := none, Calls := none }

/-- Sample tables: thread 5 with runs 7 and 8, thread 6 with run 9, one event per run. -/
def sampleDB : DB :=
  { threads := [⟨5, 0, 0, 7⟩, ⟨6, 0, 0, 9⟩],
    runs := [sampleRun 7 5 "", sampleRun 8 5 "", sampleRun 9 6 ""],
    events := [⟨1, 7, 0, zeroEvent⟩, ⟨2, 8, 0, zeroEvent⟩, ⟨3, 9, 0, zeroEvent⟩] }

/-- A sample of bus traffic: run start of run "1", an event of run "2", a call start of run
"1", the run finish of run "1" and a later event of run "1". -/
def sampleEvents : List GPTScriptEvent :=
  [ { zeroEvent with Typ := .runStart, RunID := "1", Program := some ⟨"p", ""⟩ },
    { callEvent .callStart "c1" 1 "in" none with RunID := "2" },
    { callEvent .callStart "c1" 2 "in" none with RunID := "1" },
    { zeroEvent with Typ := .runFinish, RunID := "1", Output := "o", Time := 3 },
    { callEvent .callStart "c2" 4 "in" none with RunID := "1" } ]

/-- Whether the event is a call-finish event folded into the call of identifier `k`. -/
def isFinishOf (k : String) (e : GPTScriptEvent) : Bool :=
  decide (e.Typ = .callFinish ∧ callKey e = some k)

/-- The time of the last call-finish event of the sequence for the call `k`, or `t0` when
the sequence has none. -/
def lastFinishTime (k : String) (t0 : Time) (evs : List GPTScriptEvent) : Time :=
  match (evs.filter (isFinishOf k)).getLast? with
  | none => t0
  | some e => e.Time

/-! ## Lemmas on call maps -/

@[simp] theorem SubCallMap.len_none : SubCallMap.len none = 0 := rfl

theorem mapGet_mapSet (m : CallMap) (k k' : String) (v : Call) :
    mapGet (mapSet m k v) k' = if k = k' then v else mapGet m k' := by
  induction m with
  | nil => simp [mapSet, mapGet]
  | cons hd tl ih =>
    obtain ⟨a, b⟩ := hd
    by_cases h : a = k
    · subst h
      by_cases h' : a = k' <;> simp [mapSet, mapGet, h']
    · by_cases h' : k = k'
      · subst h'
        simp [mapSet, mapGet, h, ih]
      · by_cases h2 : a = k'
        · subst h2
          simp [mapSet, mapGet, h, h']
        · simp [mapSet, mapGet, h, h', h2, ih]

/-! ## Lemmas on `process` -/

theorem processRunFields_calls (r : RunInfo) (e : GPTScriptEvent) :
    (processRunFields r e).run.Calls = r.Calls := by
  unfold processRunFields
  split
  · split <;> simp [Result.run]
  · simp only []
    split
    · simp [Result.run]
    · split <;> simp [Result.run]
  · simp [Result.run]

theorem processRunFields_id (r : RunInfo) (e : GPTScriptEvent) :
    (processRunFields r e).run.ID = r.ID := by
  unfold processRunFields
  split
  · split <;> simp [Result.run]
  · simp only []
    split
    · simp [Result.run]
    · split <;> simp [Result.run]
  · simp [Result.run]

theorem processRunFields_returns (r : RunInfo) (e : GPTScriptEvent)
    (hp : e.Typ = .runStart → e.Program ≠ none) :
    ∃ r1, processRunFields r e = .returned r1 () := by
  unfold processRunFields
  split
  · rename_i h
    rcases hprog : e.Program with _ | p
    · exact absurd hprog (hp h)
    · simp
  · simp only []
    split
    · simp
    · split <;> simp
  · simp

theorem process_of_calls (r : RunInfo) (m : CallMap) (e : GPTScriptEvent)
    (hm : r.Calls = some m) (hp : e.Typ = .runStart → e.Program ≠ none) :
    ∃ r1 msg, process r e = .returned r1 msg ∧ r1.Calls = some (stepCalls m e) ∧ r1.ID = r.ID := by
  by_cases hpr : e.Typ = .prompt
  · exact ⟨r, .prompt ⟨e.Prompt, e.RunID, e.Typ, e.Time⟩, by simp [process, hpr],
      by simp [stepCalls, callKey, hpr, hm], rfl⟩
  · obtain ⟨r1, hr1⟩ := processRunFields_returns r e hp
    have hc : r1.Calls = some m := by
      have := processRunFields_calls r e
      rw [hr1] at this
      simpa [Result.run, hm] using this
    have hi : r1.ID = r.ID := by
      have := processRunFields_id r e
      rw [hr1] at this
      simpa [Result.run] using this
    rcases hcc : e.CallContext with _ | cc
    · exact ⟨r1, .run ⟨r1, e.Typ⟩, by simp [process, hpr, hr1, hcc],
        by simp [stepCalls, callKey, hpr, hcc, hc], hi⟩
    · by_cases hid : cc.ID = ""
      · exact ⟨r1, .run ⟨r1, e.Typ⟩, by simp [process, hpr, hr1, hcc, hid],
          by simp [stepCalls, callKey, hpr, hcc, hc, hid], hi⟩
      · refine ⟨_, _, by simp [process, hpr, hr1, hcc, hid, hc]; exact ⟨rfl, rfl⟩, ?_, ?_⟩
        · simp [stepCalls, callKey, hpr, hcc, hid, RunInfo.callAt, hc]
        · simpa using hi

/-! ## Lemmas on the folded call map -/

theorem mapKeys_mapSet (m : CallMap) (k : String) (v : Call) :
    mapKeys (mapSet m k v) = if k ∈ mapKeys m then mapKeys m else mapKeys m ++ [k] := by
  induction m with
  | nil => simp [mapSet, mapKeys]
  | cons hd tl ih =>
    obtain ⟨a, b⟩ := hd
    by_cases h : a = k
    · subst h
      simp [mapSet, mapKeys]
    · have h' : ¬ k = a := fun h2 => h h2.symm
      simp only [mapKeys] at ih
      by_cases hmem : k ∈ List.map Prod.fst tl
      · simp [mapSet, mapKeys, h, h', hmem, ih]
      · simp [mapSet, mapKeys, h, h', hmem, ih]

theorem mapKeys_stepCalls (m : CallMap) (e : GPTScriptEvent) :
    mapKeys (stepCalls m e) =
      match callKey e with
      | none => mapKeys m
      | some k => if k ∈ mapKeys m then mapKeys m else mapKeys m ++ [k] := by
  unfold stepCalls
  rcases hk : callKey e with _ | k
  · simp
  · rcases hcc : e.CallContext with _ | cc
    · simp [callKey, hcc] at hk
    · simp [mapKeys_mapSet]

theorem nodup_stepCalls (m : CallMap) (e : GPTScriptEvent) (h : (mapKeys m).Nodup) :
    (mapKeys (stepCalls m e)).Nodup := by
  rw [mapKeys_stepCalls]
  rcases callKey e with _ | k
  · exact h
  · by_cases hmem : k ∈ mapKeys m
    · simpa [hmem] using h
    · simp only [hmem, if_false]
      exact List.Nodup.append h (List.nodup_singleton k) (by simpa using hmem)

theorem mem_stepCalls (m : CallMap) (e : GPTScriptEvent) (k : String) :
    k ∈ mapKeys (stepCalls m e) ↔ k ∈ mapKeys m ∨ callKey e = some k := by
  rw [mapKeys_stepCalls]
  rcases callKey e with _ | k'
  · simp
  · by_cases hmem : k' ∈ mapKeys m
    · simp only [hmem, if_true, Option.some.injEq]
      constructor
      · exact Or.inl
      · rintro (h | h)
        · exact h
        · exact h ▸ hmem
    · simp only [hmem, if_false, List.mem_append, List.mem_singleton, Option.some.injEq]
      constructor
      · rintro (h | h)
        · exact Or.inl h
        · exact Or.inr h.symm
      · rintro (h | h)
        · exact Or.inl h
        · exact Or.inr h.symm

theorem foldEvents_of_calls (evs : List GPTScriptEvent) :
    ∀ (r : RunInfo) (m : CallMap), r.Calls = some m →
      (∀ e ∈ evs, e.Typ = .runStart → e.Program ≠ none) →
      ∃ r1, foldEvents r evs = .returned r1 () ∧ r1.Calls = some (evs.foldl stepCalls m) ∧
        r1.ID = r.ID := by
  induction evs with
  | nil => intro r m hm _; exact ⟨r, rfl, by simpa using hm, rfl⟩
  | cons e rest ih =>
    intro r m hm hp
    obtain ⟨r1, msg, hr1, hc1, hi1⟩ := process_of_calls r m e hm (hp e (List.mem_cons_self _ _))
    obtain ⟨r2, hr2, hc2, hi2⟩ := ih r1 (stepCalls m e) hc1
      (fun e' he' => hp e' (List.mem_cons_of_mem _ he'))
    exact ⟨r2, by simp [foldEvents, hr1, hr2], by simpa using hc2, hi2.trans hi1⟩

theorem nodup_foldl_stepCalls (evs : List GPTScriptEvent) :
    ∀ m : CallMap, (mapKeys m).Nodup → (mapKeys (evs.foldl stepCalls m)).Nodup := by
  induction evs with
  | nil => intro m h; simpa using h
  | cons e rest ih => intro m h; simpa using ih _ (nodup_stepCalls m e h)

theorem mem_foldl_stepCalls (evs : List GPTScriptEvent) (k : String) :
    ∀ m : CallMap, k ∈ mapKeys (evs.foldl stepCalls m) ↔
      k ∈ mapKeys m ∨ ∃ e ∈ evs, callKey e = some k := by
  induction evs with
  | nil => intro m; simp
  | cons e rest ih =>
    intro m
    simp only [List.foldl_cons, ih, mem_stepCalls, List.mem_cons, exists_eq_or_imp]
    tauto

theorem callKey_eq_some (e : GPTScriptEvent) (k : String) :
    callKey e = some k ↔
      e.Typ ≠ .prompt ∧ ∃ cc, e.CallContext = some cc ∧ cc.ID = k ∧ k ≠ "" := by
  unfold callKey
  by_cases hp : e.Typ = .prompt
  · simp [hp]
  · rcases hcc : e.CallContext with _ | cc
    · simp [hp]
    · by_cases hid : cc.ID = ""
      · simp [hp, hid]
        intro h1; exact h1.symm
      · simp [hp, hid]
        intro h; exact h ▸ hid

theorem SetOutput_End (c : Call) (o : String) : (c.SetOutput o).End = c.End := by
  unfold Call.SetOutput
  split
  · rfl
  · split <;> rfl

theorem processCallFields_End (c : Call) (e : GPTScriptEvent) :
    (processCallFields c e).End = if e.Typ = .callFinish then e.Time else c.End := by
  unfold processCallFields
  split <;> rename_i h
  · simp [h]
  · simp [h, Call.SetSubCalls]
  · simp [h, SetOutput_End]
  · simp [h, SetOutput_End]
  · simp only [h]
    split <;> split <;> simp
  · have : e.Typ ≠ .callFinish := by
      intro h'; simp_all
    simp [this]

theorem mapGet_stepCalls_End (m : CallMap) (e : GPTScriptEvent) (k : String) :
    (mapGet (stepCalls m e) k).End
      = if isFinishOf k e = true then e.Time else (mapGet m k).End := by
  unfold stepCalls isFinishOf
  rcases hk : callKey e with _ | k'
  · simp
  · rcases hcc : e.CallContext with _ | cc
    · simp [callKey, hcc] at hk
    · simp only [mapGet_mapSet]
      by_cases hkk : k' = k
      · subst hkk
        simp [processCallFields_End]
      · simp [hkk]

theorem lastFinishTime_cons (k : String) (t0 : Time) (e : GPTScriptEvent)
    (rest : List GPTScriptEvent) :
    lastFinishTime k t0 (e :: rest)
      = lastFinishTime k (if isFinishOf k e = true then e.Time else t0) rest := by
  unfold lastFinishTime
  by_cases h : isFinishOf k e = true
  · simp only [List.filter_cons, h, if_true, List.getLast?_cons]
    cases (List.filter (isFinishOf k) rest).getLast? <;> simp
  · simp [List.filter_cons, h]

theorem mapGet_foldl_stepCalls_End (k : String) (evs : List GPTScriptEvent) :
    ∀ m : CallMap, (mapGet (evs.foldl stepCalls m) k).End
      = lastFinishTime k (mapGet m k).End evs := by
  induction evs with
  | nil => intro m; simp [lastFinishTime]
  | cons e rest ih =>
    intro m
    rw [List.foldl_cons, ih, lastFinishTime_cons, mapGet_stepCalls_End]

/-! ## Lemmas on the dispatcher -/

theorem firstFinish_typ (id : String) (evs : List GPTScriptEvent) (e : GPTScriptEvent)
    (h : firstFinish id evs = some e) : e.Typ = .runFinish := by
  unfold firstFinish at h
  simpa using List.find?_some h

theorem streamEvents_of_calls (runID : Nat) (evs : List GPTScriptEvent) :
    ∀ (d : Dispatch) (m : CallMap), d.run.Calls = some m →
    (∀ e ∈ evs, e.RunID = d.run.ID → e.Typ = .runStart → e.Program ≠ none) →
    ∃ r msgs, foldMessages d.run (beforeFinish d.run.ID evs) = .returned r msgs ∧
      r.Calls = some ((beforeFinish d.run.ID evs).foldl stepCalls m) ∧
      streamEvents runID d evs
        = .returned
            { run := r,
              frames := d.frames ++ msgs.map (fun msg => Frame.sse (.message msg)),
              store := d.store ++
                (beforeFinish d.run.ID evs ++ (firstFinish d.run.ID evs).toList).map
                  (StoreCall.CreateEvent runID) }
            (firstFinish d.run.ID evs) := by
  induction evs with
  | nil =>
    intro d m hm _
    exact ⟨d.run, [], by simp [beforeFinish, foldMessages], by simpa [beforeFinish] using hm,
      by simp [streamEvents, beforeFinish, firstFinish]⟩
  | cons e rest ih =>
    intro d m hm hp
    by_cases hid : e.RunID = d.run.ID
    · by_cases hfin : e.Typ = .runFinish
      · refine ⟨d.run, [], by simp [beforeFinish, hid, hfin, foldMessages],
          by simpa [beforeFinish, hid, hfin] using hm, ?_⟩
        simp [streamEvents, beforeFinish, firstFinish, hid, hfin]
      · obtain ⟨r1, msg, hr1, hc1, hi1⟩ := process_of_calls d.run m e hm
          (hp e (List.mem_cons_self _ _) hid)
        obtain ⟨r, msgs, hf, hc, hs⟩ := ih
          (writeServerSentEvent { d with store := d.store ++ [.CreateEvent runID e], run := r1 }
            (.message msg)) (stepCalls m e) (by simpa [writeServerSentEvent] using hc1)
          (fun e' he' hid' => hp e' (List.mem_cons_of_mem _ he')
            (by simpa [writeServerSentEvent, hi1] using hid'))
        simp only [writeServerSentEvent, hi1] at hf hc hs
        refine ⟨r, msg :: msgs, ?_, ?_, ?_⟩
        · simp [beforeFinish, hid, hfin, foldMessages, hr1] at hf ⊢
          simp [beforeFinish, hf]
        · simpa [beforeFinish, hid, hfin] using hc
        · simp [streamEvents, hid, hfin, hr1, writeServerSentEvent, hs, beforeFinish, firstFinish]
    · obtain ⟨r, msgs, hf, hc, hs⟩ := ih d m hm
        (fun e' he' hid' => hp e' (List.mem_cons_of_mem _ he') hid')
      refine ⟨r, msgs, ?_, ?_, ?_⟩
      · simpa [beforeFinish, hid] using hf
      · simpa [beforeFinish, hid] using hc
      · simpa [streamEvents, beforeFinish, firstFinish, hid] using hs

theorem processRunFields_threadID (r : RunInfo) (e : GPTScriptEvent) :
    (processRunFields r e).run.ThreadID = r.ThreadID := by
  unfold processRunFields
  split
  · split <;> simp [Result.run]
  · simp only []
    split
    · simp [Result.run]
    · split <;> simp [Result.run]
  · simp [Result.run]

theorem process_threadID (r : RunInfo) (e : GPTScriptEvent) :
    (process r e).run.ThreadID = r.ThreadID := by
  have h := processRunFields_threadID r e
  unfold process
  split
  · rfl
  · split
    · rename_i r1 heq
      rw [heq] at h
      simpa [Result.run] using h
    · rename_i r1 u heq
      rw [heq] at h
      simp only [Result.run] at h
      split
      · simpa [Result.run] using h
      · split
        · simpa [Result.run] using h
        · split <;> simpa [Result.run] using h

/-- The part of `processEventStreamOutput` after `streamEvents` has returned. -/
theorem processEventStreamOutput_of_stream (created : Option Thread) (threadID runID : Nat)
    (evs : List GPTScriptEvent) (sel : Merge) (hsel : sel ≠ .output none)
    (hp : ∀ e ∈ evs, e.RunID = (newRun runID).ID → e.Typ = .runStart → e.Program ≠ none) :
    ∃ d, processEventStreamOutput created threadID runID evs sel = .returned d () ∧
      d.run.ThreadID = threadAfter created threadID sel.out ∧
      d.store.getLast? = some (.FinishRun d.run.ThreadID runID d.run) ∧
      d.store.count .CreateThread = (if needsThread threadID sel.out = true then 1 else 0) := by
  obtain ⟨r, msgs, -, hc, hs⟩ :=
    streamEvents_of_calls runID evs ⟨newRun runID, [], []⟩ [] rfl hp
  have hcount : ∀ l : List GPTScriptEvent,
      List.count StoreCall.CreateThread (l.map (StoreCall.CreateEvent runID)) = 0 := by
    intro l
    rw [List.count_eq_zero]
    simp
  unfold processEventStreamOutput
  rw [hs]
  rcases hfin : firstFinish (newRun runID).ID evs with _ | e
  · rcases sel with _ | out | err
    · cases hn : needsThread threadID Merge.cancelled.out <;>
        simp [Merge.out, hn, hcount, List.count_append]
    · rcases out with _ | cs
      · exact absurd rfl hsel
      · cases hn : needsThread threadID (Merge.output (some cs)).out <;> cases hd : cs.Done <;>
          simp [Merge.out, hn, hd, hcount, List.count_append, writeServerSentEvent] at hn ⊢
    · cases hn : needsThread threadID (Merge.failed err).out <;>
        simp [Merge.out, hn, hcount, List.count_append, writeError]
  · have hty := firstFinish_typ _ _ _ hfin
    have hproc : ∀ r0 : RunInfo, r0.Calls = r.Calls →
        ∃ r1 msg, process r0 e = .returned r1 msg ∧ r1.ThreadID = r0.ThreadID := by
      intro r0 h0
      obtain ⟨r1, msg, h1, -, -⟩ := process_of_calls r0 _ e (h0.trans hc) (by simp [hty])
      refine ⟨r1, msg, h1, ?_⟩
      have := process_threadID r0 e
      rw [h1] at this
      simpa [Result.run] using this
    rcases sel with _ | out | err
    · obtain ⟨r1, msg, h1, ht1⟩ := hproc { r with ThreadID := threadAfter created threadID none } rfl
      cases hn : needsThread threadID Merge.cancelled.out <;>
        simp [Merge.out, hn, hcount, List.count_append, h1, ht1, writeServerSentEvent] at hn ⊢
    · rcases out with _ | cs
      · exact absurd rfl hsel
      · obtain ⟨r1, msg, h1, ht1⟩ := hproc
          { processStdout r cs with ThreadID := threadAfter created threadID (some cs) }
          (by simp [processStdout]; split <;> rfl)
        cases hn : needsThread threadID (Merge.output (some cs)).out <;> cases hd : cs.Done <;>
          simp [Merge.out, hn, hd, hcount, List.count_append, writeServerSentEvent, h1, ht1] at hn ⊢
    · obtain ⟨r1, msg, h1, ht1⟩ := hproc { r with ThreadID := threadAfter created threadID none } rfl
      cases hn : needsThread threadID (Merge.failed err).out <;>
        simp [Merge.out, hn, hcount, List.count_append, writeError, h1, ht1, writeServerSentEvent] at hn ⊢

theorem process_runFinish_run (r : RunInfo) (e : GPTScriptEvent) (hfin : e.Typ = .runFinish) :
    (process r e).run.State
        = (if e.Err ≠ "" then RunState.Error
           else if e.Done = false then RunState.Continue else RunState.Finished) := by
  rcases hcc : e.CallContext with _ | cc
  · by_cases herr : e.Err = "" <;> cases hd : e.Done <;>
      simp [process, processRunFields, hfin, hcc, herr, hd, Result.run]
  · by_cases hid : cc.ID = ""
    · by_cases herr : e.Err = "" <;> cases hd : e.Done <;>
        simp [process, processRunFields, hfin, hcc, herr, hd, Result.run, hid]
    · rcases hm : r.Calls with _ | m <;> by_cases herr : e.Err = "" <;> cases hd : e.Done <;>
        simp [process, processRunFields, hfin, hcc, herr, hd, Result.run, hid, hm]

theorem process_run_message (r r1 : RunInfo) (e : GPTScriptEvent) (ev : runEvent)
    (h : process r e = .returned r1 (.run ev)) : ev.RunInfo = r1 := by
  unfold process at h
  split at h
  · simp at h
  · split at h
    · simp at h
    · split at h
      · simp at h
        obtain ⟨h1, h2⟩ := h
        rw [← h2, ← h1]
      · split at h
        · simp at h
          obtain ⟨h1, h2⟩ := h
          rw [← h2, ← h1]
        · split at h <;> simp at h

theorem streamEvents_store (runID : Nat) (evs : List GPTScriptEvent) :
    ∀ d : Dispatch, ∀ c ∈ (streamEvents runID d evs).dispatch.store,
      c ∈ d.store ∨ ∃ e, c = StoreCall.CreateEvent runID e := by
  induction evs with
  | nil => intro d c hc; exact Or.inl (by simpa [streamEvents, Ended.dispatch] using hc)
  | cons e rest ih =>
    intro d c hc
    unfold streamEvents at hc
    split at hc
    · exact ih d c hc
    · simp only at hc
      split at hc
      · simp only [Ended.dispatch, List.mem_append, List.mem_singleton] at hc
        rcases hc with h | h
        · exact Or.inl h
        · exact Or.inr ⟨e, h⟩
      · split at hc
        · simp only [Ended.dispatch, List.mem_append, List.mem_singleton] at hc
          rcases hc with h | h
          · exact Or.inl h
          · exact Or.inr ⟨e, h⟩
        · rcases ih _ c hc with h | h
          · simp only [writeServerSentEvent, List.mem_append, List.mem_singleton] at h
            rcases h with h | h
            · exact Or.inl h
            · exact Or.inr ⟨e, h⟩
          · exact Or.inr h

/-- The result of `processEventStreamOutput` when no panic occurs, written out. -/
theorem processEventStreamOutput_eq (created : Option Thread) (threadID runID : Nat)
    (evs : List GPTScriptEvent) (sel : Merge) (hsel : sel ≠ .output none)
    (hp : ∀ e ∈ evs, e.RunID = (newRun runID).ID → e.Typ = .runStart → e.Program ≠ none) :
    ∃ r0 msgs r5 ff,
      foldMessages (newRun runID) (beforeFinish (newRun runID).ID evs) = .returned r0 msgs ∧
      (firstFinish (newRun runID).ID evs = none →
        r5 = { mergeRun sel r0 with ThreadID := threadAfter created threadID sel.out } ∧
        ff = []) ∧
      (∀ e, firstFinish (newRun runID).ID evs = some e →
        ∃ msg, process { mergeRun sel r0 with ThreadID := threadAfter created threadID sel.out } e
            = .returned r5 msg ∧
          ff = [Frame.sse (.message msg)]) ∧
      r5.ThreadID = threadAfter created threadID sel.out ∧
      processEventStreamOutput created threadID runID evs sel
        = .returned
            { run := finalState sel.out r5,
              frames := msgs.map (fun m => Frame.sse (.message m)) ++ mergeFrames sel ++ ff
                ++ [Frame.done],
              store :=
                (beforeFinish (newRun runID).ID evs
                  ++ (firstFinish (newRun runID).ID evs).toList).map (StoreCall.CreateEvent runID)
                ++ threadCalls threadID sel.out
                ++ [StoreCall.FinishRun (threadAfter created threadID sel.out) runID
                      (finalState sel.out r5)] }
            () := by
  obtain ⟨r, msgs, hf, hc, hs⟩ :=
    streamEvents_of_calls runID evs ⟨newRun runID, [], []⟩ [] rfl hp
  have hmc : (mergeRun sel r).Calls = r.Calls := by
    rcases sel with _ | out | err
    · rfl
    · rcases out with _ | cs
      · rfl
      · simp [mergeRun, processStdout]; split <;> rfl
    · rfl
  rcases hfin : firstFinish (newRun runID).ID evs with _ | e
  · refine ⟨r, msgs, { mergeRun sel r with ThreadID := threadAfter created threadID sel.out },
      [], hf, fun _ => ⟨rfl, rfl⟩, fun e he => by simp at he, rfl, ?_⟩
    unfold processEventStreamOutput
    rw [hs, hfin]
    rcases sel with _ | out | err
    · cases hn : needsThread threadID Merge.cancelled.out <;>
        simp [Merge.out, hn, mergeRun, mergeFrames, finalState, threadCalls] at hn ⊢
    · rcases out with _ | cs
      · exact absurd rfl hsel
      · cases hn : needsThread threadID (Merge.output (some cs)).out <;> cases hd : cs.Done <;>
          simp [Merge.out, hn, hd, mergeRun, mergeFrames, finalState, threadCalls,
            writeServerSentEvent] at hn ⊢
    · cases hn : needsThread threadID (Merge.failed err).out <;>
        simp [Merge.out, hn, mergeRun, mergeFrames, finalState, threadCalls, writeError] at hn ⊢
  · have hty := firstFinish_typ _ _ _ hfin
    obtain ⟨r1, msg, h1, -, -⟩ := process_of_calls
      { mergeRun sel r with ThreadID := threadAfter created threadID sel.out } _ e
      (hmc.trans hc) (by simp [hty])
    have ht1 : r1.ThreadID = threadAfter created threadID sel.out := by
      have := process_threadID
        { mergeRun sel r with ThreadID := threadAfter created threadID sel.out } e
      rw [h1] at this
      simpa [Result.run] using this
    refine ⟨r, msgs, r1, [Frame.sse (.message msg)], hf, fun h => by simp at h,
      fun e' he' => ?_, ht1, ?_⟩
    · have : e' = e := by simpa using he'.symm
      subst this
      exact ⟨msg, h1, rfl⟩
    · unfold processEventStreamOutput
      rw [hs, hfin]
      rcases sel with _ | out | err
      · simp only [mergeRun, Merge.out] at h1
        cases hn : needsThread threadID Merge.cancelled.out <;>
          simp [Merge.out, hn, mergeFrames, finalState, threadCalls, h1,
            writeServerSentEvent] at hn ⊢
      · rcases out with _ | cs
        · exact absurd rfl hsel
        · simp only [mergeRun, Merge.out] at h1
          cases hn : needsThread threadID (Merge.output (some cs)).out <;> cases hd : cs.Done <;>
            simp [Merge.out, hn, hd, mergeFrames, finalState, threadCalls,
              writeServerSentEvent, h1] at hn ⊢
      · simp only [mergeRun, Merge.out] at h1
        cases hn : needsThread threadID (Merge.failed err).out <;>
          simp [Merge.out, hn, mergeFrames, finalState, threadCalls, writeError, h1,
            writeServerSentEvent] at hn ⊢

theorem needsThread_of_ne_zero (threadID : Nat) (out : Option ChatResponse) (h : threadID ≠ 0) :
    needsThread threadID out = false := by
  simp [needsThread, h]

theorem processEventStreamOutput_store (created : Option Thread) (threadID runID : Nat)
    (evs : List GPTScriptEvent) (sel : Merge) (hne : threadID ≠ 0) :
    ∀ c ∈ (processEventStreamOutput created threadID runID evs sel).dispatch.store,
      (∃ e, c = StoreCall.CreateEvent runID e) ∨
      (∃ r, c = StoreCall.FinishRun threadID runID r ∧ r.ThreadID = threadID) := by
  intro c hc
  have hn : ∀ out, needsThread threadID out = false := fun out =>
    needsThread_of_ne_zero threadID out hne
  have hst := streamEvents_store runID evs ⟨newRun runID, [], []⟩
  unfold processEventStreamOutput at hc
  rcases hse : streamEvents runID ⟨newRun runID, [], []⟩ evs with ⟨d1, fin⟩ | d
  · rw [hse] at hc hst
    simp only [Ended.dispatch, List.not_mem_nil, false_or] at hst
    have hfinish : ∀ (r0 : RunInfo) (e : GPTScriptEvent),
        (process { r0 with ThreadID := threadID } e).run.ThreadID = threadID := by
      intro r0 e
      rw [process_threadID]
    rcases sel with _ | out | err
    · rcases fin with _ | e
      · simp [Ended.dispatch, hn, threadAfter, Merge.out] at hc
        rcases hc with h | h
        · exact Or.inl (hst c h)
        · exact Or.inr ⟨_, h, rfl⟩
      · have hf := hfinish d1.run e
        rcases hpe : process { d1.run with ThreadID := threadID } e with ⟨r1, msg⟩ | r1
        · rw [hpe] at hf
          simp [Ended.dispatch, hn, threadAfter, Merge.out, hpe, writeServerSentEvent] at hc
          rcases hc with h | h
          · exact Or.inl (hst c h)
          · exact Or.inr ⟨_, h, by simpa [Result.run] using hf⟩
        · simp [Ended.dispatch, hn, threadAfter, Merge.out, hpe] at hc
          exact Or.inl (hst c hc)
    · rcases out with _ | cs
      · simp [Ended.dispatch] at hc
        exact Or.inl (hst c hc)
      · rcases fin with _ | e
        · cases hd : cs.Done <;>
            simp [Ended.dispatch, hn, threadAfter, Merge.out, writeServerSentEvent, hd] at hc
          · rcases hc with h | h
            · exact Or.inl (hst c h)
            · exact Or.inr ⟨_, h, rfl⟩
          · rcases hc with h | h
            · exact Or.inl (hst c h)
            · exact Or.inr ⟨_, h, rfl⟩
        · have hf := hfinish (processStdout d1.run cs) e
          rcases hpe : process { processStdout d1.run cs with ThreadID := threadID } e
            with ⟨r1, msg⟩ | r1
          · rw [hpe] at hf
            cases hd : cs.Done <;>
              simp [Ended.dispatch, hn, threadAfter, Merge.out, hpe, writeServerSentEvent,
                hd] at hc
            · rcases hc with h | h
              · exact Or.inl (hst c h)
              · exact Or.inr ⟨_, h, by simpa [Result.run] using hf⟩
            · rcases hc with h | h
              · exact Or.inl (hst c h)
              · exact Or.inr ⟨_, h, by simpa [Result.run] using hf⟩
          · simp [Ended.dispatch, hn, threadAfter, Merge.out, hpe, writeServerSentEvent] at hc
            exact Or.inl (hst c hc)
    · rcases fin with _ | e
      · simp [Ended.dispatch, hn, threadAfter, Merge.out, writeError] at hc
        rcases hc with h | h
        · exact Or.inl (hst c h)
        · exact Or.inr ⟨_, h, rfl⟩
      · have hf := hfinish d1.run e
        rcases hpe : process { d1.run with ThreadID := threadID } e with ⟨r1, msg⟩ | r1
        · rw [hpe] at hf
          simp [Ended.dispatch, hn, threadAfter, Merge.out, hpe, writeServerSentEvent,
            writeError] at hc
          rcases hc with h | h
          · exact Or.inl (hst c h)
          · exact Or.inr ⟨_, h, by simpa [Result.run] using hf⟩
        · simp [Ended.dispatch, hn, threadAfter, Merge.out, hpe, writeError] at hc
          exact Or.inl (hst c hc)
  · rw [hse] at hc hst
    simp only [Ended.dispatch, List.not_mem_nil, false_or] at hst hc
    exact Or.inl (hst c hc)

theorem filter_not_isData_sse (msgs : List Message) :
    (msgs.map (fun m => Frame.sse (.message m))).filter (fun f => !f.isData) = [] := by
  rw [List.filter_eq_nil_iff]
  intro f hf
  simp only [List.mem_map] at hf
  obtain ⟨m, -, rfl⟩ := hf
  simp [Frame.isData]

theorem count_done_sse (msgs : List Message) :
    (msgs.map (fun m => Frame.sse (.message m))).count Frame.done = 0 := by
  rw [List.count_eq_zero]
  simp

/-- The frames of `processEventStreamOutput` when no panic occurs: the end marker is written
once and last, and the only write that is not a `data:` frame is the one of `writeError`. -/
theorem processEventStreamOutput_frames (created : Option Thread) (threadID runID : Nat)
    (evs : List GPTScriptEvent) (sel : Merge) (hsel : sel ≠ .output none)
    (hp : ∀ e ∈ evs, e.RunID = (newRun runID).ID → e.Typ = .runStart → e.Program ≠ none) :
    ∃ d, processEventStreamOutput created threadID runID evs sel = .returned d () ∧
      d.frames.getLast? = some Frame.done ∧
      d.frames.count Frame.done = 1 ∧
      d.frames.filter (fun f => !f.isData) = (mergeFrames sel).filter (fun f => !f.isData) ∧
      (∀ e, firstFinish (newRun runID).ID evs = some e →
        ∃ pre msg, d.frames = pre ++ mergeFrames sel ++ [Frame.sse (.message msg), Frame.done]) := by
  obtain ⟨r0, msgs, r5, ff, -, hnone, hsome, -, heq⟩ :=
    processEventStreamOutput_eq created threadID runID evs sel hsel hp
  have hff : ff = [] ∨ ∃ msg, ff = [Frame.sse (.message msg)] := by
    rcases hfin : firstFinish (newRun runID).ID evs with _ | e
    · exact Or.inl (hnone hfin).2
    · obtain ⟨msg, -, h⟩ := hsome e hfin
      exact Or.inr ⟨msg, h⟩
  have hmf : (mergeFrames sel).count Frame.done = 0 := by
    rcases sel with _ | out | err
    · simp [mergeFrames]
    · rcases out with _ | cs <;> simp [mergeFrames]
    · simp [mergeFrames]
  refine ⟨_, heq, by simp, ?_, ?_, ?_⟩
  · rcases hff with h | ⟨msg, h⟩ <;>
      simp [h, List.count_append, count_done_sse, hmf]
  · rcases hff with h | ⟨msg, h⟩ <;>
      simp [h, List.filter_append, filter_not_isData_sse, Frame.isData]
  · intro e he
    obtain ⟨msg, -, h⟩ := hsome e he
    exact ⟨msgs.map (fun m => Frame.sse (.message m)), msg, by simp [h]⟩

/-! ## Lemmas on output chunks -/

theorem textApart_zero : Call.zero.textApart := by
  intro ch hch
  simp [Call.zero] at hch

theorem textApart_SetSubCalls (c : Call) (sub : SubCallMap) (h : c.textApart) :
    (c.SetSubCalls sub).textApart := by
  intro ch hch hlen
  simp only [Call.SetSubCalls, List.mem_append, List.mem_singleton] at hch
  rcases hch with hch | hch
  · exact h ch hch hlen
  · rw [hch]

theorem textApart_SetOutput (c : Call) (o : String) (h : c.textApart) :
    (c.SetOutput o).textApart := by
  intro ch hch hlen
  unfold Call.SetOutput at hch
  split at hch
  · simp only [List.mem_append, List.mem_singleton] at hch
    rcases hch with hch | hch
    · exact h ch hch hlen
    · rw [hch] at hlen
      simp at hlen
  · rename_i last hlast
    split at hch
    · simp only [List.mem_append, List.mem_singleton] at hch
      rcases hch with hch | hch
      · exact h ch hch hlen
      · rw [hch] at hlen
        simp at hlen
    · rename_i hnot
      simp only [List.mem_append, List.mem_singleton] at hch
      rcases hch with hch | hch
      · exact h ch (List.mem_of_mem_dropLast hch) hlen
      · rw [hch] at hlen
        exact absurd hlen hnot

theorem textApart_processCallFields (c : Call) (e : GPTScriptEvent) (h : c.textApart) :
    (processCallFields c e).textApart := by
  unfold processCallFields
  split
  · exact h
  · exact textApart_SetSubCalls _ _ h
  · exact textApart_SetOutput _ _ h
  · exact textApart_SetOutput _ _ h
  · split <;> split <;> exact h
  · exact h

theorem textApart_stepCalls (m : CallMap) (e : GPTScriptEvent)
    (h : ∀ k, (mapGet m k).textApart) : ∀ k, (mapGet (stepCalls m e) k).textApart := by
  intro k
  unfold stepCalls
  split
  · rw [mapGet_mapSet]
    split
    · exact textApart_processCallFields _ _ (h _)
    · exact h k
  · exact h k

theorem textApart_foldl_stepCalls (evs : List GPTScriptEvent) :
    ∀ m : CallMap, (∀ k, (mapGet m k).textApart) →
      ∀ k, (mapGet (evs.foldl stepCalls m) k).textApart := by
  induction evs with
  | nil => intro m h; simpa using h
  | cons e rest ih => intro m h; simpa using ih _ (textApart_stepCalls m e h)

/-! ## C1: output coalescing -/

/-- C1 (as stated, refuted): folding call-progress "a", call-progress "b", a sub-calls event
with a non-empty child map and call-progress "c" from `newRun 7` does not leave the first
chunk with text "ab", and `Call.SetOutput` on a call whose last chunk is the text "a" does
not produce the concatenation "ab": the text of the chunk is replaced. -/
theorem C1_counterexample :
    ((foldEvents (newRun 7)
        [callEvent .callProgress "c1" 1 "a" none, callEvent .callProgress "c1" 2 "b" none,
         callEvent .callSubCalls "c1" 3 "" (some [("k", "v")]),
         callEvent .callProgress "c1" 4 "c" none]).run.callAt "c1").Output
        ≠ [⟨"ab", none⟩, ⟨"", some [("k", "v")]⟩, ⟨"c", none⟩] ∧
    (Call.SetOutput { Call.zero with Output := [⟨"a", none⟩] } "b").Output
        ≠ [⟨"a" ++ "b", none⟩] := by
  decide

/-- C1 (amended): for every run id, non-empty call id and non-empty child map, folding
call-progress "a", call-progress "b", the sub-calls event and call-progress "c" from `newRun`
returns and leaves that call with exactly three output chunks: text "b", the sub-calls chunk,
text "c". In general, when the last output chunk of a call holds no sub-calls,
`Call.SetOutput` replaces that chunk's content by the new text and keeps every earlier
chunk. -/
theorem C1_setOutput_replaces_last_text (rid : Nat) (id : String) (hid : id ≠ "")
    (c1 c2 c3 c4 : CallContext) (e1 e2 e3 e4 : GPTScriptEvent) (sub : SubCallMap)
    (hsub : 0 < sub.len) (c : Call) (o : String) (last : Output)
    (hlast : c.Output.getLast? = some last) (htext : last.SubCalls.len = 0) :
    (∃ r, foldEvents (newRun rid)
        [ { e1 with Typ := .callProgress, CallContext := some { c1 with ID := id }, Content := "a" },
          { e2 with Typ := .callProgress, CallContext := some { c2 with ID := id }, Content := "b" },
          { e3 with Typ := .callSubCalls, CallContext := some { c3 with ID := id }, ToolSubCalls := sub },
          { e4 with Typ := .callProgress, CallContext := some { c4 with ID := id }, Content := "c" } ]
        = .returned r () ∧
      (r.callAt id).Output = [⟨"b", none⟩, ⟨"", sub⟩, ⟨"c", none⟩]) ∧
    (c.SetOutput o).Output = c.Output.dropLast ++ [{ last with Content := o }] := by
  constructor
  · simp [foldEvents, process, processRunFields, processCallFields, newRun, hid, RunInfo.callAt,
      mapGet, mapSet, Call.SetOutput, Call.SetSubCalls, Call.zero, mapsClone, hsub]
  · simp [Call.SetOutput, hlast, htext]

/-- C1 witness: the amended statement at run 7, call "c1", child map with one entry, and a
call whose chunks are the texts "x" and "a". -/
theorem C1_witness :
    "c1" ≠ "" ∧ 0 < SubCallMap.len (some [("k", "v")]) ∧
    (Call.SetOutput { Call.zero with Output := [⟨"x", some [("k", "v")]⟩, ⟨"a", none⟩] } "b").Output
      = [⟨"x", some [("k", "v")]⟩, ⟨"b", none⟩] :=
  ⟨by decide, by decide,
   (C1_setOutput_replaces_last_text 7 "c1" (by decide) ⟨"", "", ""⟩ ⟨"", "", ""⟩ ⟨"", "", ""⟩
      ⟨"", "", ""⟩ zeroEvent zeroEvent zeroEvent zeroEvent (some [("k", "v")]) (by decide)
      { Call.zero with Output := [⟨"x", some [("k", "v")]⟩, ⟨"a", none⟩] } "b" ⟨"a", none⟩
      (by decide) (by decide)).2⟩

/-! ## C2: run finish -/

/-- C2: for every run and every run-finish event, the run `process` leaves has lifecycle
`error` if the event's error text is non-empty, else `continue` if the done flag is false,
else `finished`, and its end, output and error are the event's time, output and error text;
`process` returns whenever the call map is not nil or the event names no call. In particular
a run-start event carrying a program followed by the run-finish event, folded from `newRun`,
returns with that lifecycle. -/
theorem C2_run_finish_lifecycle (r : RunInfo) (e : GPTScriptEvent) (hfin : e.Typ = .runFinish) :
    (process r e).run.State
        = (if e.Err ≠ "" then RunState.Error
           else if e.Done = false then RunState.Continue else RunState.Finished) ∧
    (process r e).run.End = e.Time ∧
    (process r e).run.Output = e.Output ∧
    (process r e).run.Error = e.Err ∧
    ((r.Calls ≠ none ∨ callKey e = none) →
        ∃ msg, process r e = .returned (process r e).run msg) ∧
    (∀ (id : Nat) (e1 : GPTScriptEvent) (p : Program),
        e1.Typ = .runStart → e1.Program = some p →
        ∃ r2, foldEvents (newRun id) [e1, e] = .returned r2 () ∧
          r2.State = (if e.Err ≠ "" then RunState.Error
                      else if e.Done = false then RunState.Continue else RunState.Finished) ∧
          r2.End = e.Time ∧ r2.Output = e.Output ∧ r2.Error = e.Err) := by
  have key : ∀ r0 : RunInfo, (process r0 e).run.State
        = (if e.Err ≠ "" then RunState.Error
           else if e.Done = false then RunState.Continue else RunState.Finished) ∧
      (process r0 e).run.End = e.Time ∧ (process r0 e).run.Output = e.Output ∧
      (process r0 e).run.Error = e.Err ∧
      ((r0.Calls ≠ none ∨ callKey e = none) →
        ∃ msg, process r0 e = .returned (process r0 e).run msg) := by
    intro r0
    rcases hcc : e.CallContext with _ | cc
    · by_cases herr : e.Err = "" <;> cases hd : e.Done <;>
        simp [process, processRunFields, hfin, hcc, herr, hd, Result.run]
    · by_cases hid : cc.ID = ""
      · by_cases herr : e.Err = "" <;> cases hd : e.Done <;>
          simp [process, processRunFields, hfin, hcc, herr, hd, Result.run, hid]
      · rcases hm : r0.Calls with _ | m <;> by_cases herr : e.Err = "" <;> cases hd : e.Done <;>
          simp [process, processRunFields, hfin, hcc, herr, hd, Result.run, hid, hm, callKey]
  refine ⟨(key r).1, (key r).2.1, (key r).2.2.1, (key r).2.2.2.1, (key r).2.2.2.2, ?_⟩
  intro id e1 p h1 hp
  obtain ⟨r1, msg1, hr1, hc1, -⟩ := process_of_calls (newRun id) [] e1 rfl (by simp [hp])
  obtain ⟨hs, he, ho, herr, hret⟩ := key r1
  obtain ⟨msg2, hr2⟩ := hret (Or.inl (by simp [hc1]))
  generalize (process r1 e).run = r2 at hs he ho herr hr2
  exact ⟨r2, by simp [foldEvents, hr1, hr2], hs, he, ho, herr⟩

/-- C2 witness: a run-finish event with done set and no error text, on `newRun 1`. -/
theorem C2_witness :
    ({ zeroEvent with Typ := .runFinish, Done := true, Time := 5, Output := "out" } :
        GPTScriptEvent).Typ = .runFinish ∧
    (process (newRun 1)
        { zeroEvent with Typ := .runFinish, Done := true, Time := 5, Output := "out" }).run.State
      = RunState.Finished :=
  ⟨rfl, (C2_run_finish_lifecycle (newRun 1)
      { zeroEvent with Typ := .runFinish, Done := true, Time := 5, Output := "out" } rfl).1.trans
      (by decide)⟩

/-! ## C3: prompt and confirmation events -/

/-- C3 (as stated, refuted): a `callConfirm` event with call identifier "c1" changes the run
(its call map gains an entry) and `process` returns a call message; without a call context a
`callConfirm` event yields a run message. Neither is a standalone advisory message. -/
theorem C3_counterexample :
    (process (newRun 1) (callEvent .callConfirm "c1" 1 "" none)).run ≠ newRun 1 ∧
    (process (newRun 1) (callEvent .callConfirm "c1" 1 "" none)).val
      = some (.call { Call.zero with CallContext := ⟨"c1", "", ""⟩, Typ := .callConfirm }) ∧
    (process (newRun 1) { zeroEvent with Typ := .callConfirm }).val
      = some (.run ⟨newRun 1, .callConfirm⟩) := by
  decide

/-- C3 (amended): for every run and every event tagged `prompt`, with or without a call
context, `process` returns, leaves the whole run unchanged and returns the standalone
advisory message built from the event's prompt, run id, tag and time. An event tagged
`callConfirm` is folded like any other event: naming no call it leaves the run unchanged
and yields a run message; naming a call (on a run whose call map is not nil) it stores the
call context and the tag in that call's entry and yields a call message. -/
theorem C3_prompt_is_advisory (r : RunInfo) (e : GPTScriptEvent) :
    (e.Typ = .prompt →
      process r e = .returned r (.prompt ⟨e.Prompt, e.RunID, e.Typ, e.Time⟩)) ∧
    (e.Typ = .callConfirm → callKey e = none →
      process r e = .returned r (.run ⟨r, e.Typ⟩)) ∧
    (e.Typ = .callConfirm → ∀ (cc : CallContext) (m : CallMap),
      e.CallContext = some cc → cc.ID ≠ "" → r.Calls = some m →
      process r e
        = .returned
            { r with Calls := some (mapSet m cc.ID
                { mapGet m cc.ID with CallContext := cc, Typ := .callConfirm }) }
            (.call { mapGet m cc.ID with CallContext := cc, Typ := .callConfirm })) := by
  refine ⟨?_, ?_, ?_⟩
  · intro h
    simp [process, h]
  · intro h hk
    rcases hcc : e.CallContext with _ | cc
    · simp [process, processRunFields, h, hcc]
    · by_cases hid : cc.ID = ""
      · simp [process, processRunFields, h, hcc, hid]
      · simp [callKey, h, hcc, hid] at hk
  · intro h cc m hcc hid hm
    simp [process, processRunFields, processCallFields, h, hcc, hid, hm, RunInfo.callAt]

/-- C3 witness: a prompt event, and a `callConfirm` event without call context, on
`newRun 1`. -/
theorem C3_witness :
    ({ zeroEvent with Typ := .prompt, RunID := "1", Time := 3 } : GPTScriptEvent).Typ = .prompt ∧
    process (newRun 1) { zeroEvent with Typ := .prompt, RunID := "1", Time := 3 }
      = .returned (newRun 1) (.prompt ⟨⟨"", [], false⟩, "1", .prompt, 3⟩) ∧
    ({ zeroEvent with Typ := .callConfirm } : GPTScriptEvent).Typ = .callConfirm ∧
    callKey { zeroEvent with Typ := .callConfirm } = none ∧
    process (newRun 1) { zeroEvent with Typ := .callConfirm }
      = .returned (newRun 1) (.run ⟨newRun 1, .callConfirm⟩) :=
  ⟨rfl, (C3_prompt_is_advisory (newRun 1)
      { zeroEvent with Typ := .prompt, RunID := "1", Time := 3 }).1 rfl,
   rfl, by decide,
   (C3_prompt_is_advisory (newRun 1) { zeroEvent with Typ := .callConfirm }).2.1 rfl
      (by decide)⟩

/-! ## C4: one call entry per identifier -/

/-- C4 (as stated, refuted): an event tagged `prompt` that carries the non-empty call
identifier "c1" is folded from `newRun 1` without adding any entry to the call map. -/
theorem C4_counterexample :
    (callEvent .prompt "c1" 1 "" none).CallContext = some ⟨"c1", "", ""⟩ ∧
    foldEvents (newRun 1) [callEvent .prompt "c1" 1 "" none] = .returned (newRun 1) () ∧
    (newRun 1).Calls = some [] := by
  decide

/-- C4 (amended): after folding any finite sequence of events (its run-start events carrying
a program) through `process` from `newRun id`, the fold returns and the call map has no
duplicate key and contains exactly the non-empty call identifiers carried by the events of
the sequence that are not tagged `prompt`; events tagged `prompt`, events with a nil call
context and events with an empty identifier add no entry. -/
theorem C4_one_entry_per_folded_call_id (id : Nat) (evs : List GPTScriptEvent)
    (hprog : ∀ e ∈ evs, e.Typ = .runStart → e.Program ≠ none) :
    ∃ r m, foldEvents (newRun id) evs = .returned r () ∧ r.Calls = some m ∧
      (mapKeys m).Nodup ∧
      ∀ k, k ∈ mapKeys m ↔
        ∃ e ∈ evs, e.Typ ≠ .prompt ∧ ∃ cc, e.CallContext = some cc ∧ cc.ID = k ∧ k ≠ "" := by
  obtain ⟨r, hr, hc, -⟩ := foldEvents_of_calls evs (newRun id) [] rfl hprog
  refine ⟨r, _, hr, hc, nodup_foldl_stepCalls evs [] (by simp [mapKeys]), ?_⟩
  intro k
  rw [mem_foldl_stepCalls]
  simp [mapKeys, callKey_eq_some]

/-- C4 witness: two events of call "c1", an event without call context and an event with an
empty call identifier, folded from `newRun 1`. -/
theorem C4_witness :
    (∀ e ∈ [callEvent .callStart "c1" 1 "in" none, callEvent .callProgress "c1" 2 "x" none,
            zeroEvent, callEvent .callStart "" 3 "" none],
        e.Typ = .runStart → e.Program ≠ none) ∧
    ∃ r m, foldEvents (newRun 1)
        [callEvent .callStart "c1" 1 "in" none, callEvent .callProgress "c1" 2 "x" none,
         zeroEvent, callEvent .callStart "" 3 "" none] = .returned r () ∧
      r.Calls = some m ∧ (mapKeys m).Nodup ∧ ("c1" ∈ mapKeys m) :=
  ⟨by decide,
   match C4_one_entry_per_folded_call_id 1
      [callEvent .callStart "c1" 1 "in" none, callEvent .callProgress "c1" 2 "x" none,
       zeroEvent, callEvent .callStart "" 3 "" none] (by decide) with
   | ⟨r, m, hr, hm, hn, hk⟩ =>
     ⟨r, m, hr, hm, hn, (hk "c1").2
       ⟨callEvent .callStart "c1" 1 "in" none, by simp, by decide, ⟨"c1", "", ""⟩, rfl, rfl,
        by decide⟩⟩⟩

/-! ## C5: the end timestamp of a call -/

/-- C5 (as stated, refuted): a call-finish event with no preceding call-start sets the end
of call "c1" to 5 while its start is still the zero time, and a second call-finish event
changes the recorded end from 5 to 9. -/
theorem C5_counterexample :
    ((foldEvents (newRun 1) [callEvent .callFinish "c1" 5 "" none]).run.callAt "c1").End = 5 ∧
    ((foldEvents (newRun 1) [callEvent .callFinish "c1" 5 "" none]).run.callAt "c1").Start = 0 ∧
    ((foldEvents (newRun 1)
        [callEvent .callStart "c1" 1 "" none, callEvent .callFinish "c1" 5 "" none]).run.callAt
          "c1").End = 5 ∧
    ((foldEvents (newRun 1)
        [callEvent .callStart "c1" 1 "" none, callEvent .callFinish "c1" 5 "" none,
         callEvent .callFinish "c1" 9 "" none]).run.callAt "c1").End = 9 := by
  decide

/-- C5 (amended): after folding any finite sequence of events (its run-start events carrying
a program) through `process` from `newRun id`, the end timestamp of every call is the time
of the last call-finish event of the sequence carrying that call's identifier, and the zero
time when there is none: every call-finish event assigns the end, whether or not a
call-start event came before and whether or not the end was already set, and no other event
changes it. -/
theorem C5_end_is_last_call_finish (id : Nat) (evs : List GPTScriptEvent)
    (hprog : ∀ e ∈ evs, e.Typ = .runStart → e.Program ≠ none) :
    ∃ r, foldEvents (newRun id) evs = .returned r () ∧
      ∀ k, (r.callAt k).End = lastFinishTime k 0 evs := by
  obtain ⟨r, hr, hc, -⟩ := foldEvents_of_calls evs (newRun id) [] rfl hprog
  refine ⟨r, hr, fun k => ?_⟩
  simp [RunInfo.callAt, hc, mapGet_foldl_stepCalls_End, mapGet, Call.zero]

/-- C5 witness: call-start, call-finish at 5 and call-finish at 9 for call "c1", folded from
`newRun 1`. -/
theorem C5_witness :
    (∀ e ∈ [callEvent .callStart "c1" 1 "" none, callEvent .callFinish "c1" 5 "" none,
            callEvent .callFinish "c1" 9 "" none],
        e.Typ = .runStart → e.Program ≠ none) ∧
    ∃ r, foldEvents (newRun 1)
        [callEvent .callStart "c1" 1 "" none, callEvent .callFinish "c1" 5 "" none,
         callEvent .callFinish "c1" 9 "" none] = .returned r () ∧
      (r.callAt "c1").End = 9 :=
  ⟨by decide,
   match C5_end_is_last_call_finish 1
      [callEvent .callStart "c1" 1 "" none, callEvent .callFinish "c1" 5 "" none,
       callEvent .callFinish "c1" 9 "" none] (by decide) with
   | ⟨r, hr, hk⟩ => ⟨r, hr, (hk "c1").trans (by decide)⟩⟩

/-! ## C6: the terminal helper -/

/-- C6: for every run and every execution result, `processStdout` leaves lifecycle
`finished` exactly when the result is done and `continue` exactly when it is not, sets the
continuation state, the output and the raw output from the result, and changes none of
calls, error, thread id, start, end, program, input, id. -/
theorem C6_processStdout (r : RunInfo) (cs : ChatResponse) :
    ((processStdout r cs).State = RunState.Finished ↔ cs.Done = true) ∧
    ((processStdout r cs).State = RunState.Continue ↔ cs.Done = false) ∧
    (processStdout r cs).ChatState = cs.State ∧
    (processStdout r cs).Output = cs.Content ∧
    (processStdout r cs).RawOutput = some cs ∧
    (processStdout r cs).Calls = r.Calls ∧
    (processStdout r cs).Error = r.Error ∧
    (processStdout r cs).ThreadID = r.ThreadID ∧
    (processStdout r cs).Start = r.Start ∧
    (processStdout r cs).End = r.End ∧
    (processStdout r cs).Program = r.Program ∧
    (processStdout r cs).Input = r.Input ∧
    (processStdout r cs).ID = r.ID := by
  cases hd : cs.Done <;> simp [processStdout, hd]

/-! ## C7: the event loop -/

/-- C7: for every sequence of bus events received by `streamEvents` until the subscription
closes (the call map of the run not nil, the run-start events of the run carrying a
program), the loop returns; the events handed to `CreateEvent` are exactly the events whose
run id is the run's id, in order, up to and including the first run-finish event of the run;
the events folded through `process`, whose messages are written in that order, are the same
events without that run-finish event; events of other runs are neither persisted, folded
nor streamed; and the value returned is that first run-finish event, or nil when there is
none. -/
theorem C7_streamEvents_persists_folds_streams (runID : Nat) (evs : List GPTScriptEvent)
    (d : Dispatch) (m : CallMap) (hm : d.run.Calls = some m)
    (hp : ∀ e ∈ evs, e.RunID = d.run.ID → e.Typ = .runStart → e.Program ≠ none) :
    ∃ r msgs, foldMessages d.run (beforeFinish d.run.ID evs) = .returned r msgs ∧
      streamEvents runID d evs
        = .returned
            { run := r,
              frames := d.frames ++ msgs.map (fun msg => Frame.sse (.message msg)),
              store := d.store ++
                (beforeFinish d.run.ID evs ++ (firstFinish d.run.ID evs).toList).map
                  (StoreCall.CreateEvent runID) }
            (firstFinish d.run.ID evs) := by
  obtain ⟨r, msgs, hf, -, hs⟩ := streamEvents_of_calls runID evs d m hm hp
  exact ⟨r, msgs, hf, hs⟩

/-- C7 witness: the sample bus traffic received by the loop of run 1. -/
theorem C7_witness :
    (newRun 1).Calls = some [] ∧
    (∀ e ∈ sampleEvents, e.RunID = (newRun 1).ID → e.Typ = .runStart → e.Program ≠ none) ∧
    ∃ r msgs, foldMessages (newRun 1) (beforeFinish (newRun 1).ID sampleEvents)
        = .returned r msgs ∧
      streamEvents 1 ⟨newRun 1, [], []⟩ sampleEvents
        = .returned
            { run := r,
              frames := [] ++ msgs.map (fun msg => Frame.sse (.message msg)),
              store := [] ++
                (beforeFinish (newRun 1).ID sampleEvents
                  ++ (firstFinish (newRun 1).ID sampleEvents).toList).map
                  (StoreCall.CreateEvent 1) }
            (firstFinish (newRun 1).ID sampleEvents) :=
  ⟨rfl, by decide,
   C7_streamEvents_persists_folds_streams 1 sampleEvents ⟨newRun 1, [], []⟩ [] rfl (by decide)⟩

/-! ## C8: implicit thread creation -/

/-- C8 (as stated, refuted): with thread id 0, the sample events and a failed execution (no
result arrived), `CreateThread` is not called although the store would return thread 42, the
run keeps thread id 0 and `FinishRun` receives thread id 0; likewise no thread is created
when the context is cancelled. -/
theorem C8_counterexample :
    (processEventStreamOutput (some ⟨42, 0, 0, 0⟩) 0 1 sampleEvents
        (.failed "boom")).dispatch.store.count .CreateThread = 0 ∧
    (processEventStreamOutput (some ⟨42, 0, 0, 0⟩) 0 1 sampleEvents
        (.failed "boom")).dispatch.run.ThreadID = 0 ∧
    (processEventStreamOutput (some ⟨42, 0, 0, 0⟩) 0 1 sampleEvents
        (.failed "boom")).dispatch.store.getLast?
      = some (.FinishRun 0 1 (processEventStreamOutput (some ⟨42, 0, 0, 0⟩) 0 1 sampleEvents
        (.failed "boom")).dispatch.run) ∧
    (processEventStreamOutput (some ⟨42, 0, 0, 0⟩) 0 1 sampleEvents
        .cancelled).dispatch.store.count .CreateThread = 0 := by
  decide

/-- C8 (amended): for every invocation of `processEventStreamOutput` with thread id 0 (the
run-start events of the run carrying a program): when the result arrives with done false and
`CreateThread` returns a thread, `CreateThread` is called exactly once and both the run's
thread id and the thread id passed to `FinishRun` are the new thread's id; when the result
arrives with done true, and also when no result arrives (the execution failed or the context
was cancelled), no thread is created and `FinishRun` is called with thread id 0. -/
theorem C8_thread_created_only_for_unfinished_result (runID : Nat) (evs : List GPTScriptEvent)
    (hp : ∀ e ∈ evs, e.RunID = (newRun runID).ID → e.Typ = .runStart → e.Program ≠ none) :
    (∀ (thread : Thread) (cs : ChatResponse), cs.Done = false →
      ∃ d, processEventStreamOutput (some thread) 0 runID evs (.output (some cs))
          = .returned d () ∧
        d.store.count .CreateThread = 1 ∧ d.run.ThreadID = thread.ID ∧
        d.store.getLast? = some (.FinishRun thread.ID runID d.run)) ∧
    (∀ (created : Option Thread) (cs : ChatResponse), cs.Done = true →
      ∃ d, processEventStreamOutput created 0 runID evs (.output (some cs)) = .returned d () ∧
        d.store.count .CreateThread = 0 ∧ d.run.ThreadID = 0 ∧
        d.store.getLast? = some (.FinishRun 0 runID d.run)) ∧
    (∀ (created : Option Thread) (sel : Merge), (sel = .cancelled ∨ ∃ err, sel = .failed err) →
      ∃ d, processEventStreamOutput created 0 runID evs sel = .returned d () ∧
        d.store.count .CreateThread = 0 ∧ d.run.ThreadID = 0 ∧
        d.store.getLast? = some (.FinishRun 0 runID d.run)) := by
  refine ⟨?_, ?_, ?_⟩
  · intro thread cs hd
    obtain ⟨d, hr, ht, hl, hcnt⟩ := processEventStreamOutput_of_stream (some thread) 0 runID evs
      (.output (some cs)) (by simp) hp
    have hn : needsThread 0 (Merge.output (some cs)).out = true := by
      simp [needsThread, Merge.out, hd]
    simp only [threadAfter, hn, if_true] at ht hcnt
    exact ⟨d, hr, hcnt, ht, by rw [← ht]; exact hl⟩
  · intro created cs hd
    obtain ⟨d, hr, ht, hl, hcnt⟩ := processEventStreamOutput_of_stream created 0 runID evs
      (.output (some cs)) (by simp) hp
    have hn : needsThread 0 (Merge.output (some cs)).out = false := by
      simp [needsThread, Merge.out, hd]
    simp [threadAfter, hn] at ht hcnt
    exact ⟨d, hr, by simpa using hcnt, ht, by rw [← ht]; exact hl⟩
  · intro created sel hsel
    have hne : sel ≠ .output none := by
      rcases hsel with h | ⟨err, h⟩ <;> simp [h]
    obtain ⟨d, hr, ht, hl, hcnt⟩ := processEventStreamOutput_of_stream created 0 runID evs
      sel hne hp
    have hn : needsThread 0 sel.out = false := by
      rcases hsel with h | ⟨err, h⟩ <;> simp [needsThread, Merge.out, h]
    simp [threadAfter, hn] at ht hcnt
    exact ⟨d, hr, by simpa using hcnt, ht, by rw [← ht]; exact hl⟩

/-- C8 witness: run 1 with the sample events, a result with done false, and a store that
returns thread 42. -/
theorem C8_witness :
    (∀ e ∈ sampleEvents, e.RunID = (newRun 1).ID → e.Typ = .runStart → e.Program ≠ none) ∧
    (⟨false, "o", "", some "st"⟩ : ChatResponse).Done = false ∧
    ∃ d, processEventStreamOutput (some ⟨42, 0, 0, 0⟩) 0 1 sampleEvents
          (.output (some ⟨false, "o", "", some "st"⟩)) = .returned d () ∧
        d.store.count .CreateThread = 1 ∧ d.run.ThreadID = 42 ∧
        d.store.getLast? = some (.FinishRun 42 1 d.run) :=
  ⟨by decide, rfl,
   (C8_thread_created_only_for_unfinished_result 1 sampleEvents (by decide)).1
      ⟨42, 0, 0, 0⟩ ⟨false, "o", "", some "st"⟩ rfl⟩

/-! ## C9: finishing a run in the store -/

/-- C9 (as stated, refuted): `Store.FinishRun` with thread id 5 for run 7 on empty tables
succeeds and leaves the run table empty, so no run row with that id exists afterwards; and
on a run row whose output is "old", finishing with a run info whose output is empty leaves
"old" in the row. -/
theorem C9_counterexample :
    (Store.FinishRun (some ⟨[], [], []⟩) 9 none none 5 7 (newRun 7)).1 = some ⟨[], [], []⟩ ∧
    (Store.FinishRun (some ⟨[], [], []⟩) 9 none none 5 7 (newRun 7)).2.2.2 = none ∧
    (Store.FinishRun (some ⟨[], [sampleRun 7 5 "old"], []⟩) 9 none none 5 7 (newRun 7)).1
      = some ⟨[], [{ sampleRun 7 5 "old" with
                      FinishedAt := 9, Run := some { newRun 7 with ThreadID := 5 },
                      Calls := some [] }], []⟩ ∧
    (newRun 7).Output = "" := by
  decide

/-- C9 (amended): `Store.FinishRun` on an initialised store. With thread id 0 and no
statement error, no run row and no event row with the run id remains, the other run and
event rows and the thread table being kept. With a non-zero thread id and no statement
error, no row is created or removed: every run row with that id is updated in place and
afterwards carries the given thread id and the run snapshot, and the run info's output,
continuation state and call map where these are not zero (an empty output, a nil state or a
nil call map leaves the column as it was); the other run rows, the event table and the
thread table are unchanged. The two paths exclude each other, and when a statement of the
path taken reports an error the tables are exactly as before and an error is returned. -/
theorem C9_finishRun_deletes_or_updates (db : DB) (now : Time) (fail1 fail2 : Option String) (threadID id : Nat)
    (r : RunInfo) :
    (threadID = 0 → fail1 = none → fail2 = none →
      ∃ db', Store.FinishRun (some db) now fail1 fail2 threadID id r
          = (some db', { r with ThreadID := threadID },
             (Store.FinishRun (some db) now fail1 fail2 threadID id r).2.2.1, none) ∧
        (∀ row ∈ db'.runs, row.ID ≠ id) ∧ (∀ ev ∈ db'.events, ev.RunID ≠ id) ∧
        db'.runs = db.runs.filter (fun row => row.ID ≠ id) ∧
        db'.events = db.events.filter (fun ev => ev.RunID ≠ id) ∧
        db'.threads = db.threads) ∧
    (threadID ≠ 0 → fail1 = none →
      ∃ db', Store.FinishRun (some db) now fail1 fail2 threadID id r
          = (some db', { r with ThreadID := threadID },
             (Store.FinishRun (some db) now fail1 fail2 threadID id r).2.2.1, none) ∧
        db'.events = db.events ∧ db'.threads = db.threads ∧
        db'.runs.length = db.runs.length ∧
        (∀ row ∈ db.runs, row.ID ≠ id → row ∈ db'.runs) ∧
        (∀ row ∈ db.runs, row.ID = id →
          ∃ row' ∈ db'.runs, row'.ID = id ∧ row'.ThreadID = threadID ∧
            row'.Run = some { r with ThreadID := threadID } ∧
            row'.Output = (if r.Output = "" then row.Output else r.Output) ∧
            row'.ChatStateAfter
              = (match r.ChatState with | none => row.ChatStateAfter | some v => some v) ∧
            row'.Calls = (match r.Calls with | none => row.Calls | some m => some m)) ∧
        (∀ row' ∈ db'.runs, row'.ID = id → ∃ row ∈ db.runs, row.ID = id)) ∧
    ((fail1 ≠ none ∨ (threadID = 0 ∧ fail2 ≠ none)) →
      (Store.FinishRun (some db) now fail1 fail2 threadID id r).1 = some db ∧
      (Store.FinishRun (some db) now fail1 fail2 threadID id r).2.2.2 ≠ none) := by
  refine ⟨?_, ?_, ?_⟩
  · intro h0 h1 h2
    subst h0 h1 h2
    refine ⟨_, rfl, ?_, ?_, ?_, ?_, ?_⟩ <;>
      simp [Store.FinishRun, transaction, finishRunTx, exec]
  · intro h0 h1
    subst h1
    have hfr : Store.FinishRun (some db) now none fail2 threadID id r
        = (some { db with runs := db.runs.map (fun row =>
              if row.ID = id then
                row.Updates (finishedRun now threadID id { r with ThreadID := threadID })
              else row) },
           { r with ThreadID := threadID },
           some (finishedRun now threadID id { r with ThreadID := threadID }),
           none) := by
      simp [Store.FinishRun, transaction, finishRunTx, exec, h0]
    rw [hfr]
    refine ⟨_, rfl, rfl, rfl, by simp, ?_, ?_, ?_⟩
    · intro row hrow hne
      simp only [List.mem_map]
      exact ⟨row, hrow, by simp [hne]⟩
    · intro row hrow heq
      refine ⟨row.Updates (finishedRun now threadID id { r with ThreadID := threadID }), ?_, ?_⟩
      · simp only [List.mem_map]
        exact ⟨row, hrow, by simp [heq]⟩
      · rcases hcs : r.ChatState with _ | v <;> rcases hcl : r.Calls with _ | m <;>
          simp [Run.Updates, finishedRun, heq, h0, hcs, hcl]
    · intro row' hrow' heq
      simp only [List.mem_map] at hrow'
      obtain ⟨row, hrow, hr⟩ := hrow'
      refine ⟨row, hrow, ?_⟩
      by_cases h : row.ID = id
      · exact h
      · simp [h] at hr
        rw [hr] at h
        exact absurd heq h
  · rintro (h | ⟨h0, h2⟩)
    · rcases fail1 with _ | e1
      · exact absurd rfl h
      · by_cases h0 : threadID = 0 <;>
          simp [Store.FinishRun, transaction, finishRunTx, exec, h0]
    · rcases fail2 with _ | e2
      · exact absurd rfl h2
      · rcases fail1 with _ | e1 <;>
          simp [Store.FinishRun, transaction, finishRunTx, exec, h0]

/-- C9 witness: run 7 of the sample tables finished with thread id 0, and with thread id 5. -/
theorem C9_witness :
    (0 = 0 ∧ (none : Option String) = none ∧
      ∃ db', (Store.FinishRun (some sampleDB) 9 none none 0 7 (newRun 7)).1 = some db' ∧
        (∀ row ∈ db'.runs, row.ID ≠ 7) ∧ (∀ ev ∈ db'.events, ev.RunID ≠ 7)) ∧
    (5 ≠ 0 ∧
      ∃ db', (Store.FinishRun (some sampleDB) 9 none none 5 7 (newRun 7)).1 = some db' ∧
        db'.events = sampleDB.events ∧ db'.runs.length = sampleDB.runs.length) :=
  ⟨⟨rfl, rfl,
    match (C9_finishRun_deletes_or_updates sampleDB 9 none none 0 7 (newRun 7)).1 rfl rfl rfl with
    | ⟨db', h, h1, h2, _⟩ => ⟨db', by rw [h], h1, h2⟩⟩,
   ⟨by decide,
    match (C9_finishRun_deletes_or_updates sampleDB 9 none none 5 7 (newRun 7)).2.1
        (by decide) rfl with
    | ⟨db', h, h1, _, h3, _⟩ => ⟨db', by rw [h], h1, h3⟩⟩⟩

/-! ## C10: deleting a thread -/

/-- C10 (the code at the failing input): `Store.DeleteThread` on an initialised store never
removes an event row. Whenever it returns an error the three tables are exactly as before the
call. Whenever it returns no error the thread row and the run rows of the thread are gone
and the event table is unchanged, the events of those runs included. When the database hands
back the deleted run rows and the thread has a run, the second statement is given rows where
ids are meant and fails, so the call returns an error and deletes nothing. When it hands
back nothing and no statement reports an error, the call succeeds. -/
theorem C10_deleteThread_deletes_no_event (db : DB) (returning : Bool)
    (fail1 fail2 fail3 : Option String) (id : Nat) :
    ((Store.DeleteThread (some db) returning fail1 fail2 fail3 id).2 ≠ none →
      (Store.DeleteThread (some db) returning fail1 fail2 fail3 id).1 = some db) ∧
    ((Store.DeleteThread (some db) returning fail1 fail2 fail3 id).2 = none →
      ∃ db', (Store.DeleteThread (some db) returning fail1 fail2 fail3 id).1 = some db' ∧
        db'.events = db.events ∧
        db'.runs = db.runs.filter (fun row => row.ThreadID ≠ id) ∧
        db'.threads = db.threads.filter (fun t => t.ID ≠ id)) ∧
    (returning = true → (∃ row ∈ db.runs, row.ThreadID = id) →
      (Store.DeleteThread (some db) returning fail1 fail2 fail3 id).1 = some db ∧
      (Store.DeleteThread (some db) returning fail1 fail2 fail3 id).2 ≠ none) ∧
    (returning = false → fail1 = none → fail2 = none → fail3 = none →
      (Store.DeleteThread (some db) returning fail1 fail2 fail3 id).2 = none) := by
  refine ⟨?_, ?_, ?_, ?_⟩
  · intro h
    rcases fail1 with _ | e1
    · by_cases hemp : (if returning = true then
          db.runs.filter (fun row => decide (row.ThreadID = id)) else []).isEmpty = true
      · rcases fail2 with _ | e2
        · rcases fail3 with _ | e3
          · simp [Store.DeleteThread, transaction, deleteThreadTx, exec, hemp] at h
          · simp [Store.DeleteThread, transaction, deleteThreadTx, exec, hemp]
        · simp [Store.DeleteThread, transaction, deleteThreadTx, exec, hemp]
      · simp [Store.DeleteThread, transaction, deleteThreadTx, exec, hemp]
    · simp [Store.DeleteThread, transaction, deleteThreadTx, exec]
  · intro h
    rcases fail1 with _ | e1
    · by_cases hemp : (if returning = true then
          db.runs.filter (fun row => decide (row.ThreadID = id)) else []).isEmpty = true
      · rcases fail2 with _ | e2
        · rcases fail3 with _ | e3
          · simp [Store.DeleteThread, transaction, deleteThreadTx, exec, hemp]
          · simp [Store.DeleteThread, transaction, deleteThreadTx, exec, hemp] at h
        · simp [Store.DeleteThread, transaction, deleteThreadTx, exec, hemp] at h
      · simp [Store.DeleteThread, transaction, deleteThreadTx, exec, hemp] at h
    · simp [Store.DeleteThread, transaction, deleteThreadTx, exec] at h
  · rintro hret ⟨row, hrow, hth⟩
    subst hret
    have hne : (db.runs.filter (fun row => decide (row.ThreadID = id))).isEmpty = false := by
      rw [List.isEmpty_eq_false]
      intro hnil
      have : row ∈ db.runs.filter (fun row => decide (row.ThreadID = id)) :=
        List.mem_filter.2 ⟨hrow, by simpa using hth⟩
      rw [hnil] at this
      exact absurd this (List.not_mem_nil _)
    rcases fail1 with _ | e1 <;>
      simp [Store.DeleteThread, transaction, deleteThreadTx, exec, hne]
  · intro hret h1 h2 h3
    subst hret h1 h2 h3
    simp [Store.DeleteThread, transaction, deleteThreadTx, exec]

/-- C10 witness: thread 5 of the sample tables (runs 7 and 8, one event each): with the
deleted rows handed back the call fails and the tables are unchanged; without them the call
succeeds and the event of run 7 is still in the event table. -/
theorem C10_witness :
    (true = true ∧ (∃ row ∈ sampleDB.runs, row.ThreadID = 5) ∧
      (Store.DeleteThread (some sampleDB) true none none none 5).1 = some sampleDB ∧
      (Store.DeleteThread (some sampleDB) true none none none 5).2 ≠ none) ∧
    ((Store.DeleteThread (some sampleDB) false none none none 5).2 = none ∧
      ∃ db', (Store.DeleteThread (some sampleDB) false none none none 5).1 = some db' ∧
        db'.events = sampleDB.events ∧
        (⟨1, 7, 0, zeroEvent⟩ : Event) ∈ db'.events ∧
        sampleRun 7 5 "" ∈ sampleDB.runs) :=
  ⟨⟨rfl, ⟨sampleRun 7 5 "", by decide, by decide⟩,
    (C10_deleteThread_deletes_no_event sampleDB true none none none 5).2.2.1 rfl
      ⟨sampleRun 7 5 "", by decide, by decide⟩⟩,
   ⟨by decide,
    match (C10_deleteThread_deletes_no_event sampleDB false none none none 5).2.1
        (by decide) with
    | ⟨db', h, he, _, _⟩ => ⟨db', h, he, by rw [he]; decide, by decide⟩⟩⟩
/-! ## C11: the nil store -/

/-- C11: every store operation applied to the nil store (`CreateThread`, `NameThread`,
`DeleteThread`, `ListThreads`, `GetThread`, `CreateRun`, `FinishRun`, `ListRuns`, `GetRun`,
`CreateEvent`, `ListEvents`, `GetEvent`) returns a nil or empty result and a nil error,
whatever its arguments and whatever the database would have reported; the store stays nil
and `FinishRun` hands back the run info exactly as it was passed. -/
theorem C11_nil_store_operations_are_no_ops (now : Time) (newID : Nat) (returning : Bool)
    (fail1 fail2 fail3 : Option String) (id threadID runID previousRunID : Nat)
    (name input : String) (run : Option RunInfo) (r : RunInfo) (event : GPTScriptEvent) :
    Store.CreateThread none now newID fail1 = (none, none, none) ∧
    Store.NameThread none now fail1 id name = (none, none, none) ∧
    Store.DeleteThread none returning fail1 fail2 fail3 id = (none, none) ∧
    Store.ListThreads none fail1 = ([], none) ∧
    Store.GetThread none fail1 id = (none, none) ∧
    Store.CreateRun none now newID fail1 fail2 input previousRunID run = (none, none, none) ∧
    Store.FinishRun none now fail1 fail2 threadID id r = (none, r, none, none) ∧
    Store.ListRuns none fail1 threadID = ([], none) ∧
    Store.GetRun none fail1 threadID id = (none, none) ∧
    Store.CreateEvent none now newID fail1 runID event = (none, none, none) ∧
    Store.ListEvents none fail1 runID = ([], none) ∧
    Store.GetEvent none fail1 runID id = (none, none) :=
  ⟨rfl, rfl, rfl, rfl, rfl, rfl, rfl, rfl, rfl, rfl, rfl, rfl⟩

/-! ## C12: the frames of the stream -/

/-- C12 (the code at the failing input): for every invocation of `processEventStreamOutput`
in which the execution fails (the run-start events of the run carrying a program), the
function returns, the end marker is written exactly once and last, and exactly one write is
not a `data:` frame: the error, which `writeError` writes as status 500 and a bare JSON
object. -/
theorem C12_error_is_written_outside_data_frames (created : Option Thread) (threadID runID : Nat) (evs : List GPTScriptEvent)
    (err : String)
    (hp : ∀ e ∈ evs, e.RunID = (newRun runID).ID → e.Typ = .runStart → e.Program ≠ none) :
    ∃ d, processEventStreamOutput created threadID runID evs (.failed err) = .returned d () ∧
      d.frames.filter (fun f => !f.isData)
        = [Frame.body 500 (.stderr ("failed to run file: " ++ err))] ∧
      d.frames.getLast? = some Frame.done ∧
      d.frames.count Frame.done = 1 := by
  obtain ⟨d, hd, hlast, hcount, hfilter, -⟩ :=
    processEventStreamOutput_frames created threadID runID evs (.failed err) (by simp) hp
  exact ⟨d, hd, by simpa [mergeFrames, Frame.isData] using hfilter, hlast, hcount⟩

/-- C12 witness: the sample bus of run 1 and an execution that fails with "boom". -/
theorem C12_witness :
    (∀ e ∈ sampleBus, e.RunID = (newRun 1).ID → e.Typ = .runStart → e.Program ≠ none) ∧
    ∃ d, processEventStreamOutput none 0 1 sampleBus (.failed "boom") = .returned d () ∧
      d.frames.filter (fun f => !f.isData)
        = [Frame.body 500 (.stderr ("failed to run file: " ++ "boom"))] ∧
      d.frames.getLast? = some Frame.done ∧
      d.frames.count Frame.done = 1 :=
  ⟨by decide, C12_error_is_written_outside_data_frames none 0 1 sampleBus "boom" (by decide)⟩

/-! ## C13: the session monitor -/

/-- C13: with the bus as the list of published events, `SessionFactory.Start` appends exactly
one run-start event, carrying the run id of the context and the program, when the tool
category of the context is `NoCategory`, and leaves the bus unchanged otherwise, returning in
both cases the session of that run id; `Session.Stop` appends exactly one run-finish event,
carrying the run id and input of the session, the output and the message of a non-nil error,
when the category is `NoCategory`, and leaves the bus unchanged for a nested sub-call. -/
theorem C13_start_and_stop_publish_for_top_level_runs (bus : Bus) (now : Time) (ctx : Context)
    (prg : Option Program) (env : List String) (input output : String) (err : Option String)
    (s : Session) :
    (ctx.category = .NoCategory →
      (SessionFactory.Start bus now ctx prg env input).1
        = bus ++ [{ zeroEvent with
                    Time := now, Typ := .runStart, RunID := ctx.runID, Program := prg }]) ∧
    (ctx.category ≠ .NoCategory → (SessionFactory.Start bus now ctx prg env input).1 = bus) ∧
    (SessionFactory.Start bus now ctx prg env input).2
      = { id := ctx.runID, prj := prg, env := env, input := input } ∧
    (ctx.category = .NoCategory →
      s.Stop bus now ctx output err
        = bus ++ [{ zeroEvent with
                    Time := now, Typ := .runFinish, RunID := s.id, Input := s.input,
                    Output := output, Err := err.getD "" }]) ∧
    (ctx.category ≠ .NoCategory → s.Stop bus now ctx output err = bus) := by
  refine ⟨?_, ?_, rfl, ?_, ?_⟩
  · intro h
    simp [SessionFactory.Start, h]
  · intro h
    simp [SessionFactory.Start, h]
  · intro h
    cases err <;> simp [Session.Stop, h, zeroEvent]
  · intro h
    simp [Session.Stop, h]

/-- C13 witness: a top-level start of run "7", a stop of a nested sub-call and a top-level
stop with the error "boom". -/
theorem C13_witness :
    (⟨"7", .NoCategory⟩ : Context).category = .NoCategory ∧
    (SessionFactory.Start [] 3 ⟨"7", .NoCategory⟩ (some ⟨"p", ""⟩) [] "in").1
      = [{ zeroEvent with Time := 3, Typ := .runStart, RunID := "7", Program := some ⟨"p", ""⟩ }] ∧
    (⟨"7", .category "provider"⟩ : Context).category ≠ .NoCategory ∧
    Session.Stop ⟨"7", none, [], "in"⟩ [] 4 ⟨"7", .category "provider"⟩ "out" (some "boom") = [] ∧
    Session.Stop ⟨"7", none, [], "in"⟩ [] 4 ⟨"7", .NoCategory⟩ "out" (some "boom")
      = [{ zeroEvent with
           Time := 4, Typ := .runFinish, RunID := "7", Input := "in", Output := "out",
           Err := "boom" }] :=
  ⟨rfl,
   (C13_start_and_stop_publish_for_top_level_runs [] 3 ⟨"7", .NoCategory⟩ (some ⟨"p", ""⟩) []
      "in" "out" none ⟨"7", none, [], "in"⟩).1 rfl,
   by decide,
   (C13_start_and_stop_publish_for_top_level_runs [] 4 ⟨"7", .category "provider"⟩ none []
      "in" "out" (some "boom") ⟨"7", none, [], "in"⟩).2.2.2.2 (by decide),
   (C13_start_and_stop_publish_for_top_level_runs [] 4 ⟨"7", .NoCategory⟩ none []
      "in" "out" (some "boom") ⟨"7", none, [], "in"⟩).2.2.2.1 rfl⟩

/-! ## C15: text and sub-call chunks -/

/-- C15 (as stated, refuted): after `SetSubCalls` with an empty map, and also with a nil map,
`SetOutput` appends no chunk and writes its text "x" into the chunk the sub-calls event
produced; the same happens when the two events are folded by `process`. -/
theorem C15_counterexample :
    ((Call.zero.SetSubCalls (some [])).SetOutput "x").Output = [⟨"x", some []⟩] ∧
    ((Call.zero.SetSubCalls none).SetOutput "x").Output = [⟨"x", none⟩] ∧
    ((foldEvents (newRun 1)
        [callEvent .callSubCalls "c1" 1 "" (some []),
         callEvent .callProgress "c1" 2 "x" none]).run.callAt "c1").Output
      = [⟨"x", some []⟩] := by
  decide

/-- C15 (amended): for every call and every child map (empty and nil included),
`Call.SetSubCalls` appends exactly one chunk holding that map with empty text and leaves the
earlier chunks unchanged. A `Call.SetOutput` that follows appends a new text chunk when the
map has at least one entry, and writes its text into the chunk of the sub-calls event when
the map is empty or nil. Both operations keep the property that every chunk holding at least
one sub-call has empty text, and after folding any events from `newRun` (the run-start events
carrying a program) every chunk of every call has that property. -/
theorem C15_text_and_sub_calls_kept_apart (c : Call) (sub : SubCallMap) (o : String) :
    (c.SetSubCalls sub).Output = c.Output ++ [⟨"", sub⟩] ∧
    (0 < sub.len →
      ((c.SetSubCalls sub).SetOutput o).Output = c.Output ++ [⟨"", sub⟩, ⟨o, none⟩]) ∧
    (sub.len = 0 → ((c.SetSubCalls sub).SetOutput o).Output = c.Output ++ [⟨o, sub⟩]) ∧
    (c.textApart → (c.SetSubCalls sub).textApart ∧ (c.SetOutput o).textApart) ∧
    (∀ (id : Nat) (evs : List GPTScriptEvent),
      (∀ e ∈ evs, e.Typ = .runStart → e.Program ≠ none) →
      ∃ r, foldEvents (newRun id) evs = .returned r () ∧
        ∀ k, ∀ ch ∈ (r.callAt k).Output, 0 < ch.SubCalls.len → ch.Content = "") := by
  refine ⟨rfl, ?_, ?_, ?_, ?_⟩
  · intro h
    simp [Call.SetSubCalls, Call.SetOutput, mapsClone, h]
  · intro h
    simp [Call.SetSubCalls, Call.SetOutput, mapsClone, h]
  · intro h
    exact ⟨textApart_SetSubCalls c sub h, textApart_SetOutput c o h⟩
  · intro id evs hp
    obtain ⟨r, hr, hc, -⟩ := foldEvents_of_calls evs (newRun id) [] rfl hp
    refine ⟨r, hr, fun k => ?_⟩
    have := textApart_foldl_stepCalls evs [] (fun k => by simpa [mapGet] using textApart_zero) k
    simpa [RunInfo.callAt, hc] using this

/-- C15 witness: `SetSubCalls` with a one-entry map followed by `SetOutput "x"` on the zero
call. -/
theorem C15_witness :
    0 < SubCallMap.len (some [("k", "v")]) ∧
    ((Call.zero.SetSubCalls (some [("k", "v")])).SetOutput "x").Output
      = Call.zero.Output ++ [⟨"", some [("k", "v")]⟩, ⟨"x", none⟩] :=
  ⟨by decide,
   (C15_text_and_sub_calls_kept_apart Call.zero (some [("k", "v")]) "x").2.1 (by decide)⟩

/-! ## C16: the lifecycle handed to `FinishRun` -/

/-- C16 (the code at the failing input): for every invocation of `processEventStreamOutput`
in which the result arrives with done true and the first run-finish event of the run has no
error text and its done flag unset (the run-start events of the run carrying a program), the
function returns and the run handed to `FinishRun` has lifecycle `continue`, not
`finished`. -/
theorem C16_done_result_is_finished_as_continue (created : Option Thread) (threadID runID : Nat) (evs : List GPTScriptEvent)
    (cs : ChatResponse) (e : GPTScriptEvent)
    (hp : ∀ e ∈ evs, e.RunID = (newRun runID).ID → e.Typ = .runStart → e.Program ≠ none)
    (hdone : cs.Done = true) (hfin : firstFinish (newRun runID).ID evs = some e)
    (herr : e.Err = "") (hd : e.Done = false) :
    ∃ d, processEventStreamOutput created threadID runID evs (.output (some cs))
        = .returned d () ∧
      d.run.State = RunState.Continue ∧
      d.store.getLast? = some (.FinishRun threadID runID d.run) := by
  obtain ⟨r0, msgs, r5, ff, -, -, hsome, -, heq⟩ :=
    processEventStreamOutput_eq created threadID runID evs (.output (some cs)) (by simp) hp
  obtain ⟨msg, hproc, -⟩ := hsome e hfin
  have hst := process_runFinish_run
    { mergeRun (.output (some cs)) r0 with
      ThreadID := threadAfter created threadID (Merge.output (some cs)).out } e
    (firstFinish_typ _ _ _ hfin)
  rw [hproc] at hst
  simp only [Result.run, herr, hd, ne_eq, not_true_eq_false, if_false, if_true] at hst
  have hta : threadAfter created threadID (Merge.output (some cs)).out = threadID := by
    simp [threadAfter, needsThread, Merge.out, hdone]
  refine ⟨_, heq, ?_, ?_⟩
  · simp [finalState, Merge.out, hdone, hst]
  · simp [hta]

/-- C16 witness: the sample bus, whose run-finish event is the one `Session.Stop` publishes,
and a result with done true, for thread 5. -/
theorem C16_witness :
    (∀ e ∈ sampleBus, e.RunID = (newRun 1).ID → e.Typ = .runStart → e.Program ≠ none) ∧
    firstFinish (newRun 1).ID sampleBus
      = some { zeroEvent with
               Time := 3, Typ := .runFinish, RunID := "1", Input := "in", Output := "out" } ∧
    ∃ d, processEventStreamOutput none 5 1 sampleBus (.output (some ⟨true, "out", "", none⟩))
        = .returned d () ∧
      d.run.State = RunState.Continue ∧
      d.store.getLast? = some (.FinishRun 5 1 d.run) :=
  ⟨by decide, by decide,
   C16_done_result_is_finished_as_continue none 5 1 sampleBus ⟨true, "out", "", none⟩
     { zeroEvent with Time := 3, Typ := .runFinish, RunID := "1", Input := "in", Output := "out" }
     (by decide) rfl (by decide) rfl rfl⟩

/-! ## C17: the thread id of a run -/

/-- C17 (as stated, refuted): `Store.FinishRun` on the nil store, given thread id 5, leaves
the thread id of the run info at 0. -/
theorem C17_counterexample :
    (Store.FinishRun none 9 none none 5 7 (newRun 7)).2.1.ThreadID = 0 ∧
    (Store.FinishRun none 9 none none 5 7 (newRun 7)).2.1.ThreadID ≠ 5 := by
  decide

/-- C17 (amended): for every invocation of `processEventStreamOutput` with a non-zero thread
id, whatever the events, the case of the `select` and the outcome, `CreateThread` is never
called and every `FinishRun` call receives that thread id and a run whose thread id is that
thread id; when no panic occurs (the run-start events of the run carrying a program, no nil
result) the function returns, the run ends with that thread id, `FinishRun` is the last store
call, and the message streamed after the merge, when it is a run message, shows that thread
id. `Store.FinishRun` on an initialised store sets the thread id of the run info to the
thread id it was given. -/
theorem C17_thread_id_is_kept (created : Option Thread) (threadID runID : Nat) (evs : List GPTScriptEvent)
    (sel : Merge) (hne : threadID ≠ 0) :
    StoreCall.CreateThread
      ∉ (processEventStreamOutput created threadID runID evs sel).dispatch.store ∧
    (∀ t i r, StoreCall.FinishRun t i r
        ∈ (processEventStreamOutput created threadID runID evs sel).dispatch.store →
      t = threadID ∧ r.ThreadID = threadID) ∧
    (sel ≠ .output none →
      (∀ e ∈ evs, e.RunID = (newRun runID).ID → e.Typ = .runStart → e.Program ≠ none) →
      ∃ d, processEventStreamOutput created threadID runID evs sel = .returned d () ∧
        d.run.ThreadID = threadID ∧
        d.store.getLast? = some (.FinishRun threadID runID d.run) ∧
        (∀ e, firstFinish (newRun runID).ID evs = some e →
          ∃ pre msg, d.frames = pre ++ [Frame.sse (.message msg), Frame.done] ∧
            ∀ ev, msg = .run ev → ev.RunInfo.ThreadID = threadID)) ∧
    (∀ (db : DB) (now : Time) (fail1 fail2 : Option String) (id : Nat) (r : RunInfo),
      (Store.FinishRun (some db) now fail1 fail2 threadID id r).2.1.ThreadID = threadID) := by
  have hst := processEventStreamOutput_store created threadID runID evs sel hne
  have hta : threadAfter created threadID sel.out = threadID := by
    simp [threadAfter, needsThread_of_ne_zero threadID sel.out hne]
  refine ⟨?_, ?_, ?_, ?_⟩
  · intro hmem
    rcases hst _ hmem with ⟨e, h⟩ | ⟨r, h, -⟩ <;> simp at h
  · intro t i r hmem
    rcases hst _ hmem with ⟨e, h⟩ | ⟨r', h, hr'⟩
    · simp at h
    · simp only [StoreCall.FinishRun.injEq] at h
      exact ⟨h.1, by rw [h.2.2]; exact hr'⟩
  · intro hsel hp
    obtain ⟨r0, msgs, r5, ff, -, -, hsome, ht5, heq⟩ :=
      processEventStreamOutput_eq created threadID runID evs sel hsel hp
    rw [hta] at ht5 heq
    have hfs : (finalState sel.out r5).ThreadID = threadID := by
      unfold finalState
      split
      · split <;> simpa using ht5
      · exact ht5
    refine ⟨_, heq, hfs, by simp, ?_⟩
    intro e he
    obtain ⟨msg, hproc, hff⟩ := hsome e he
    refine ⟨msgs.map (fun m => Frame.sse (.message m)) ++ mergeFrames sel, msg, ?_, ?_⟩
    · simp [hff]
    · intro ev hev
      subst hev
      rw [hta] at hproc
      rw [process_run_message _ _ _ _ hproc]
      exact ht5
  · intro db now fail1 fail2 id r
    rfl

/-- C17 witness: the sample bus with thread id 5 and a result that is not done. -/
theorem C17_witness :
    5 ≠ 0 ∧
    (Merge.output (some ⟨false, "out", "", some "st"⟩)) ≠ Merge.output none ∧
    (∀ e ∈ sampleBus, e.RunID = (newRun 1).ID → e.Typ = .runStart → e.Program ≠ none) ∧
    ∃ d, processEventStreamOutput (some ⟨42, 0, 0, 0⟩) 5 1 sampleBus
          (.output (some ⟨false, "out", "", some "st"⟩)) = .returned d () ∧
        d.run.ThreadID = 5 ∧ d.store.getLast? = some (.FinishRun 5 1 d.run) :=
  ⟨by decide, by decide, by decide,
   match (C17_thread_id_is_kept (some ⟨42, 0, 0, 0⟩) 5 1 sampleBus
      (.output (some ⟨false, "out", "", some "st"⟩)) (by decide)).2.2.1 (by decide)
      (by decide) with
   | ⟨d, h1, h2, h3, _⟩ => ⟨d, h1, h2, h3⟩⟩

/-! ## C18: totality of `process` -/

/-- C18 (the code at the failing input): a runner event tagged run start that the engine
hands to `Session.Event`, and the run-start event `SessionFactory.Start` publishes for a nil
program, carry no program; on `newRun 1`, a state the claim covers, `process` panics on
such an event at the dereference of the program, after writing the start time. -/
theorem C18_run_start_without_program_panics :
    Session.Event ⟨"1", none, [], ""⟩ [] ⟨5, none, none, .runStart, none, none, ""⟩
      = [{ zeroEvent with Time := 5, Typ := .runStart, RunID := "1" }] ∧
    process (newRun 1) { zeroEvent with Time := 5, Typ := .runStart, RunID := "1" }
      = .panicked { newRun 1 with Start := 5 } ∧
    (SessionFactory.Start [] 5 ⟨"1", .NoCategory⟩ none [] "").1
      = [{ zeroEvent with Time := 5, Typ := .runStart, RunID := "1" }] := by
  decide

end Sdkserver
